import Mathlib

set_option maxHeartbeats 1000000

/- Verification of the actor-manager core of BeamFactory.cpp: slot registry,
sleep/wake activity state machine, frame-to-substep scheduler, stream health
query and the physics step dispatcher. -/

/-! ## Frame scheduler (ActorManager.update, BeamFactory.cpp lines 1016-1030) -/

/-- Fixed physics substep length in seconds. Modelled from the spec: PHYSICS_DT
(the FIXED_SUBSTEP) equals 0.0005 s; the constant itself is defined in a header
that is not under src/. -/
def PHYSICS_DT : ℚ := 1 / 2000

/-- Truncation toward zero, the semantics of the C++ cast from a floating point
value to int used in the assignment of m_physics_steps. -/
def ratTrunc (q : ℚ) : ℤ := if 0 ≤ q then ⌊q⌋ else -⌊-q⌋

/-- Scheduler-relevant state of ActorManager, together with the global
simulation clock gEnv.mrTime that the scheduler advances. -/
structure SchedState where
  m_dt_remainder : ℚ
  m_physics_steps : ℤ
  m_simulation_speed : ℚ
  mrTime : ℚ
  m_physics_frames : ℕ
deriving DecidableEq

/-- Shallow embedding of the frame scheduler part of ActorManager.update
(BeamFactory.cpp lines 1016-1030): increment the frame counter, clamp dt to at
most 1/20 s, scale by the simulation speed, add the carried remainder, derive
the whole substep count by truncation, store the new remainder and advance the
global clock by exactly the substep count times PHYSICS_DT. -/
def schedUpdate (dt0 : ℚ) (s : SchedState) : SchedState :=
  let dt1 := min dt0 (1 / 20)
  let dt2 := dt1 * s.m_simulation_speed
  let dt3 := dt2 + s.m_dt_remainder
  let steps := ratTrunc (dt3 / PHYSICS_DT)
  { s with
    m_physics_frames := s.m_physics_frames + 1
    m_physics_steps := steps
    m_dt_remainder := dt3 - steps * PHYSICS_DT
    mrTime := s.mrTime + PHYSICS_DT * steps }

theorem ratTrunc_of_nonneg {q : ℚ} (h : 0 ≤ q) : ratTrunc q = ⌊q⌋ := by
  simp [ratTrunc, h]

theorem PHYSICS_DT_pos : (0 : ℚ) < PHYSICS_DT := by norm_num [PHYSICS_DT]

/-- C2: in every call of ActorManager.update, dt is clamped to at most 1/20 s,
scaled by the simulation speed, and the carried remainder is added; the substep
count is the floor of the resulting total divided by PHYSICS_DT, the carried
remainder for the next frame is the total minus the substep count times
PHYSICS_DT, and the global simulation clock advances by exactly the substep
count times PHYSICS_DT, an exact integer multiple of PHYSICS_DT. -/
theorem c2_frame_scheduler (dt : ℚ) (s : SchedState)
    (h1 : 0 ≤ dt) (h2 : 0 ≤ s.m_dt_remainder) (h3 : 0 ≤ s.m_simulation_speed) :
    (schedUpdate dt s).m_physics_steps
      = ⌊(min dt (1 / 20) * s.m_simulation_speed + s.m_dt_remainder) / PHYSICS_DT⌋ ∧
    (schedUpdate dt s).m_dt_remainder
      = (min dt (1 / 20) * s.m_simulation_speed + s.m_dt_remainder)
        - (schedUpdate dt s).m_physics_steps * PHYSICS_DT ∧
    (schedUpdate dt s).mrTime = s.mrTime + (schedUpdate dt s).m_physics_steps * PHYSICS_DT ∧
    ∃ k : ℤ, (schedUpdate dt s).mrTime - s.mrTime = k * PHYSICS_DT := by
  have hmin : 0 ≤ min dt (1 / 20 : ℚ) := le_min h1 (by norm_num)
  have htot : 0 ≤ min dt (1 / 20 : ℚ) * s.m_simulation_speed + s.m_dt_remainder :=
    add_nonneg (mul_nonneg hmin h3) h2
  have hdiv : 0 ≤ (min dt (1 / 20 : ℚ) * s.m_simulation_speed + s.m_dt_remainder) / PHYSICS_DT :=
    div_nonneg htot (le_of_lt PHYSICS_DT_pos)
  refine ⟨?_, ?_, ?_, ?_⟩
  · simp only [schedUpdate, ratTrunc_of_nonneg hdiv]
  · simp only [schedUpdate, ratTrunc_of_nonneg hdiv]
  · simp only [schedUpdate]
    ring
  · refine ⟨(schedUpdate dt s).m_physics_steps, ?_⟩
    simp only [schedUpdate]
    ring

theorem schedUpdate_eval (d : ℚ) (s : SchedState) :
    schedUpdate d s =
      ⟨(min d (1 / 20) * s.m_simulation_speed + s.m_dt_remainder)
        - (ratTrunc ((min d (1 / 20) * s.m_simulation_speed + s.m_dt_remainder) / PHYSICS_DT))
          * PHYSICS_DT,
       ratTrunc ((min d (1 / 20) * s.m_simulation_speed + s.m_dt_remainder) / PHYSICS_DT),
       s.m_simulation_speed,
       s.mrTime + PHYSICS_DT
         * ratTrunc ((min d (1 / 20) * s.m_simulation_speed + s.m_dt_remainder) / PHYSICS_DT),
       s.m_physics_frames + 1⟩ := rfl

/-- C8 counterexample: with d1 = d2 = 1/25 s (each below the 1/20 s clamp,
their sum an exact multiple 160 of PHYSICS_DT), two successive calls of
ActorManager.update from the zero state yield 80 + 80 = 160 substeps with zero
final remainder, but a single call with d1 + d2 = 2/25 s is clamped to 1/20 s
and yields only 100 substeps, so the split and the single call disagree. -/
theorem c8_clamp_breaks_split :
    (1 / 25 : ℚ) < 1 / 20 ∧
    (1 / 25 : ℚ) + 1 / 25 = (160 : ℚ) * PHYSICS_DT ∧
    (schedUpdate (1 / 25) ⟨0, 0, 1, 0, 0⟩).m_physics_steps = 80 ∧
    (schedUpdate (1 / 25) (schedUpdate (1 / 25) ⟨0, 0, 1, 0, 0⟩)).m_physics_steps = 80 ∧
    (schedUpdate (1 / 25) (schedUpdate (1 / 25) ⟨0, 0, 1, 0, 0⟩)).m_dt_remainder = 0 ∧
    (schedUpdate (1 / 25 + 1 / 25) ⟨0, 0, 1, 0, 0⟩).m_physics_steps = 100 ∧
    (80 + 80 : ℤ) ≠ 100 := by
  have m1 : min (1 / 25 : ℚ) (1 / 20) = 1 / 25 := min_eq_left (by norm_num)
  have m2 : min (1 / 25 + 1 / 25 : ℚ) (1 / 20) = 1 / 20 := min_eq_right (by norm_num)
  have hA : schedUpdate (1 / 25) (⟨0, 0, 1, 0, 0⟩ : SchedState) = ⟨0, 80, 1, 1 / 25, 1⟩ := by
    rw [schedUpdate_eval]
    norm_num [m1, ratTrunc, PHYSICS_DT]
  have hB : schedUpdate (1 / 25) (⟨0, 80, 1, 1 / 25, 1⟩ : SchedState) = ⟨0, 80, 1, 2 / 25, 2⟩ := by
    rw [schedUpdate_eval]
    norm_num [m1, ratTrunc, PHYSICS_DT]
  have hC : schedUpdate (1 / 25 + 1 / 25) (⟨0, 0, 1, 0, 0⟩ : SchedState)
      = ⟨0, 100, 1, 1 / 20, 1⟩ := by
    rw [schedUpdate_eval]
    norm_num [m2, ratTrunc, PHYSICS_DT]
  refine ⟨by norm_num, by norm_num [PHYSICS_DT], ?_, ?_, ?_, ?_, by norm_num⟩
  · rw [hA]
  · rw [hA, hB]
  · rw [hA, hB]
  · rw [hC]

/-- C8 amended: the split property additionally needs the combined delta to be
at most the 1/20 s clamp (the claim only requires each of d1, d2 to be below
it). Under simulation speed 1, zero starting remainder, nonnegative deltas
with d1 + d2 = k * PHYSICS_DT and d1 + d2 at most 1/20 s, two successive calls
of ActorManager.update yield total substep count k and zero final remainder,
the same as one call with d1 + d2. -/
theorem c8_split_frames (d1 d2 : ℚ) (k : ℕ) (s : SchedState)
    (hrem : s.m_dt_remainder = 0) (hspeed : s.m_simulation_speed = 1)
    (h1 : 0 ≤ d1) (h2 : 0 ≤ d2) (hsum : d1 + d2 ≤ 1 / 20)
    (hk : d1 + d2 = (k : ℚ) * PHYSICS_DT) :
    (schedUpdate d1 s).m_physics_steps
      + (schedUpdate d2 (schedUpdate d1 s)).m_physics_steps = k ∧
    (schedUpdate d2 (schedUpdate d1 s)).m_dt_remainder = 0 ∧
    (schedUpdate (d1 + d2) s).m_physics_steps = k ∧
    (schedUpdate (d1 + d2) s).m_dt_remainder = 0 := by
  have hd1le : d1 ≤ (1 / 20 : ℚ) := le_trans (le_add_of_nonneg_right h2) hsum
  have hd2le : d2 ≤ (1 / 20 : ℚ) := le_trans (le_add_of_nonneg_left h1) hsum
  have htr1 : ratTrunc (d1 / PHYSICS_DT) = ⌊d1 / PHYSICS_DT⌋ :=
    ratTrunc_of_nonneg (div_nonneg h1 PHYSICS_DT_pos.le)
  have hfk : ⌊d1 / PHYSICS_DT⌋ ≤ (k : ℤ) := by
    have hql : d1 / PHYSICS_DT ≤ (k : ℚ) := by
      rw [div_le_iff₀ PHYSICS_DT_pos]
      calc d1 ≤ d1 + d2 := le_add_of_nonneg_right h2
        _ = (k : ℚ) * PHYSICS_DT := hk
    calc ⌊d1 / PHYSICS_DT⌋ ≤ ⌊(k : ℚ)⌋ := Int.floor_le_floor hql
      _ = (k : ℤ) := Int.floor_natCast k
  have key : d2 + (d1 - (⌊d1 / PHYSICS_DT⌋ : ℚ) * PHYSICS_DT)
      = (((k : ℤ) - ⌊d1 / PHYSICS_DT⌋ : ℤ) : ℚ) * PHYSICS_DT := by
    push_cast
    have hq : d1 + d2 = (k : ℚ) * PHYSICS_DT := hk
    ring_nf
    ring_nf at hq
    linarith
  have hnn : (0 : ℚ) ≤ (((k : ℤ) - ⌊d1 / PHYSICS_DT⌋ : ℤ) : ℚ) := by
    have h0 : (0 : ℤ) ≤ (k : ℤ) - ⌊d1 / PHYSICS_DT⌋ := by omega
    exact_mod_cast h0
  have hcan : (((k : ℤ) - ⌊d1 / PHYSICS_DT⌋ : ℤ) : ℚ) * PHYSICS_DT / PHYSICS_DT
      = (((k : ℤ) - ⌊d1 / PHYSICS_DT⌋ : ℤ) : ℚ) :=
    mul_div_cancel_right₀ _ (ne_of_gt PHYSICS_DT_pos)
  have htr2 : ratTrunc ((((k : ℤ) - ⌊d1 / PHYSICS_DT⌋ : ℤ) : ℚ)) = (k : ℤ) - ⌊d1 / PHYSICS_DT⌋ := by
    rw [ratTrunc_of_nonneg hnn, Int.floor_intCast]
  have hkq : ((k : ℚ) * PHYSICS_DT) / PHYSICS_DT = ((k : ℕ) : ℚ) :=
    mul_div_cancel_right₀ _ (ne_of_gt PHYSICS_DT_pos)
  have htr3 : ratTrunc (((k : ℕ) : ℚ)) = (k : ℤ) := by
    rw [ratTrunc_of_nonneg (by positivity), Int.floor_natCast]
  refine ⟨?_, ?_, ?_, ?_⟩
  · rw [schedUpdate_eval d2, schedUpdate_eval d1]
    simp only [hrem, hspeed, min_eq_left hd1le, min_eq_left hd2le, mul_one, add_zero, htr1]
    rw [key, hcan, htr2]
    ring
  · rw [schedUpdate_eval d2, schedUpdate_eval d1]
    simp only [hrem, hspeed, min_eq_left hd1le, min_eq_left hd2le, mul_one, add_zero, htr1]
    rw [key, hcan, htr2]
    ring
  · rw [schedUpdate_eval]
    simp only [hrem, hspeed, min_eq_left hsum, mul_one, add_zero]
    rw [hk, hkq, htr3]
  · rw [schedUpdate_eval]
    simp only [hrem, hspeed, min_eq_left hsum, mul_one, add_zero]
    rw [hk, hkq, htr3]
    push_cast
    ring

/-- Witness for c8_split_frames at d1 = 3/2000, d2 = 7/2000, k = 10. -/
theorem c8_split_frames_witness :
    ((0 : ℚ) ≤ 3 / 2000 ∧ (0 : ℚ) ≤ 7 / 2000 ∧ (3 / 2000 : ℚ) + 7 / 2000 ≤ 1 / 20 ∧
      (3 / 2000 : ℚ) + 7 / 2000 = (10 : ℕ) * PHYSICS_DT) ∧
    ((schedUpdate (3 / 2000) ⟨0, 0, 1, 0, 0⟩).m_physics_steps
      + (schedUpdate (7 / 2000) (schedUpdate (3 / 2000) ⟨0, 0, 1, 0, 0⟩)).m_physics_steps
        = (10 : ℕ) ∧
     (schedUpdate (7 / 2000) (schedUpdate (3 / 2000) ⟨0, 0, 1, 0, 0⟩)).m_dt_remainder = 0 ∧
     (schedUpdate (3 / 2000 + 7 / 2000) ⟨0, 0, 1, 0, 0⟩).m_physics_steps = (10 : ℕ) ∧
     (schedUpdate (3 / 2000 + 7 / 2000) ⟨0, 0, 1, 0, 0⟩).m_dt_remainder = 0) :=
  ⟨⟨by norm_num, by norm_num, by norm_num, by norm_num [PHYSICS_DT]⟩,
   c8_split_frames (3 / 2000) (7 / 2000) 10 ⟨0, 0, 1, 0, 0⟩ rfl rfl
     (by norm_num) (by norm_num) (by norm_num) (by norm_num [PHYSICS_DT])⟩

/-- Witness for c2_frame_scheduler at dt = 1/30 s from the zero state. -/
theorem c2_frame_scheduler_witness :
    ((0 : ℚ) ≤ 1 / 30 ∧ (0 : ℚ) ≤ 0 ∧ (0 : ℚ) ≤ 1) ∧
    ((schedUpdate (1 / 30) ⟨0, 0, 1, 0, 0⟩).m_physics_steps
      = ⌊(min (1 / 30 : ℚ) (1 / 20) * 1 + 0) / PHYSICS_DT⌋ ∧
     (schedUpdate (1 / 30) ⟨0, 0, 1, 0, 0⟩).m_dt_remainder
      = (min (1 / 30 : ℚ) (1 / 20) * 1 + 0)
        - (schedUpdate (1 / 30) ⟨0, 0, 1, 0, 0⟩).m_physics_steps * PHYSICS_DT ∧
     (schedUpdate (1 / 30) ⟨0, 0, 1, 0, 0⟩).mrTime
      = 0 + (schedUpdate (1 / 30) ⟨0, 0, 1, 0, 0⟩).m_physics_steps * PHYSICS_DT ∧
     ∃ k : ℤ, (schedUpdate (1 / 30) ⟨0, 0, 1, 0, 0⟩).mrTime - 0 = k * PHYSICS_DT) :=
  ⟨⟨by norm_num, by norm_num, by norm_num⟩,
   c2_frame_scheduler (1 / 30) ⟨0, 0, 1, 0, 0⟩ (by norm_num) (by norm_num) (by norm_num)⟩

/-! ## Actor slot registry (GetFreeTruckSlot, DeleteTruck, removeTruck,
CleanUpAllTrucks, CreateLocalRigInstance) -/

/-- Registry-relevant state of ActorManager. The fixed array m_actors of
MAX_TRUCKS nullable actor pointers is a list of optional actors, an actor
modelled by its ar_instance_id slot index; the list length plays the role of
MAX_TRUCKS and is preserved by every operation. -/
structure RegState where
  m_actors : List (Option ℕ)
  m_free_actor_slot : ℕ
  m_player_actor : ℤ
  m_prev_player_actor : ℤ
deriving DecidableEq

/-- The slot scan loop of ActorManager.GetFreeTruckSlot (BeamFactory.cpp lines
666-680): starting at index t with rem slots left to inspect, return the first
index holding an empty slot at or above the high-water mark. -/
def freeSlotScan (actors : List (Option ℕ)) (mark : ℕ) : ℕ → ℕ → Option ℕ
  | _, 0 => none
  | t, rem + 1 =>
    if (actors.getD t none).isNone = true ∧ mark ≤ t then some t
    else freeSlotScan actors mark (t + 1) rem

/-- ActorManager.GetFreeTruckSlot (lines 666-680): scan all MAX_TRUCKS slots
for the first empty slot at index at least m_free_actor_slot; on success
advance m_free_actor_slot past the returned index, on failure return -1
(modelled as none) and leave the state unchanged. -/
def getFreeTruckSlot (r : RegState) : Option ℕ × RegState :=
  match freeSlotScan r.m_actors r.m_free_actor_slot 0 r.m_actors.length with
  | some t => (some t, { r with m_free_actor_slot := t + 1 })
  | none => (none, r)

/-- The registry-relevant part of ActorManager.setCurrentTruck (lines 919-942):
remember the previous player actor and store the new selection. -/
def setCurrentTruckReg (newTruck : ℤ) (r : RegState) : RegState :=
  { r with m_prev_player_actor := r.m_player_actor, m_player_actor := newTruck }

/-- The registry-relevant part of ActorManager.DeleteTruck (lines 822-845): if
the actor being deleted is the current player actor, clear the selection, then
empty its slot. The high-water mark m_free_actor_slot is not touched. -/
def deleteTruck (i : ℕ) (r : RegState) : RegState :=
  let r1 := if r.m_player_actor = (i : ℤ) then setCurrentTruckReg (-1) r else r
  { r1 with m_actors := r1.m_actors.set i none }

/-- ActorManager.removeTruck (lines 786-798): bounds-check the index, require a
live actor in the slot, then delete. The NETWORKED_OK guard is omitted: the
registry model does not track activity states and the guard never touches the
mark. -/
def removeTruck (truck : ℤ) (r : RegState) : RegState :=
  if truck < 0 ∨ (r.m_free_actor_slot : ℤ) < truck then r
  else if (r.m_actors.getD truck.toNat none).isNone = true then r
  else deleteTruck truck.toNat r

/-- ActorManager.CleanUpAllTrucks (lines 800-820): destroy every live actor at
index below the mark and reset the player selection to none; m_free_actor_slot
is deliberately left untouched (slot reuse is disabled by design). -/
def cleanUpAllTrucks (r : RegState) : RegState :=
  { r with
    m_actors := (List.range r.m_free_actor_slot).foldl (fun l i => l.set i none) r.m_actors
    m_player_actor := -1 }

/-- ActorManager.CreateLocalRigInstance (lines 210-283) restricted to registry
effects, with the actor construction outcome abstracted into the boolean
valid (an ar_sim_state of INVALID after construction means not valid):
allocate a slot via GetFreeTruckSlot; on allocation failure report failure; on
construction failure call DeleteTruck on the fresh actor and report failure,
leaving the already advanced mark in place; on success register the actor in
its slot. -/
def createLocalRigInstance (valid : Bool) (r : RegState) : Option ℕ × RegState :=
  match getFreeTruckSlot r with
  | (none, r1) => (none, r1)
  | (some truckNum, r1) =>
    if valid then
      (some truckNum, { r1 with m_actors := r1.m_actors.set truckNum (some truckNum) })
    else (none, deleteTruck truckNum r1)

/-- A session operation on the registry: a local spawn (with a valid
construction), a delete through removeTruck, or the teardown
CleanUpAllTrucks. -/
inductive RegOp
  | alloc
  | del (truck : ℤ)
  | clearAll
deriving DecidableEq

/-- Run a sequence of session operations, collecting the slot indices returned
by the allocations, in order. -/
def regRun : List RegOp → RegState → List ℕ × RegState
  | [], r => ([], r)
  | RegOp.alloc :: ops, r =>
    match createLocalRigInstance true r with
    | (some t, r1) =>
      let rest := regRun ops r1
      (t :: rest.1, rest.2)
    | (none, r1) => regRun ops r1
  | RegOp.del i :: ops, r => regRun ops (removeTruck i r)
  | RegOp.clearAll :: ops, r => regRun ops (cleanUpAllTrucks r)

/-- Invariant of the registry: every slot at or above the high-water mark has
never been allocated and is empty. -/
def AllocInv (r : RegState) : Prop :=
  ∀ t, r.m_free_actor_slot ≤ t → r.m_actors.getD t none = none

theorem freeSlotScan_some (actors : List (Option ℕ)) (mark : ℕ) :
    ∀ rem t u, freeSlotScan actors mark t rem = some u →
      t ≤ u ∧ u < t + rem ∧ (actors.getD u none).isNone = true ∧ mark ≤ u ∧
      ∀ v, t ≤ v → v < u → ¬((actors.getD v none).isNone = true ∧ mark ≤ v) := by
  intro rem
  induction rem with
  | zero => intro t u h; simp [freeSlotScan] at h
  | succ n ih =>
    intro t u h
    rw [freeSlotScan] at h
    by_cases hc : (actors.getD t none).isNone = true ∧ mark ≤ t
    · rw [if_pos hc] at h
      cases h
      exact ⟨le_refl _, by omega, hc.1, hc.2, fun v hv1 hv2 => by omega⟩
    · rw [if_neg hc] at h
      obtain ⟨h1, h2, h3, h4, h5⟩ := ih (t + 1) u h
      refine ⟨by omega, by omega, h3, h4, ?_⟩
      intro v hv1 hv2
      rcases Nat.eq_or_lt_of_le hv1 with heq | hlt
      · rw [← heq]; exact hc
      · exact h5 v hlt hv2

theorem freeSlotScan_none (actors : List (Option ℕ)) (mark : ℕ) :
    ∀ rem t, freeSlotScan actors mark t rem = none →
      ∀ v, t ≤ v → v < t + rem → ¬((actors.getD v none).isNone = true ∧ mark ≤ v) := by
  intro rem
  induction rem with
  | zero => intro t _ v hv1 hv2; omega
  | succ n ih =>
    intro t h v hv1 hv2
    rw [freeSlotScan] at h
    by_cases hc : (actors.getD t none).isNone = true ∧ mark ≤ t
    · rw [if_pos hc] at h; cases h
    · rw [if_neg hc] at h
      rcases Nat.eq_or_lt_of_le hv1 with heq | hlt
      · rw [← heq]; exact hc
      · exact ih (t + 1) h v hlt (by omega)

theorem freeSlotScan_isSome (actors : List (Option ℕ)) (mark : ℕ) :
    ∀ rem t v, t ≤ v → v < t + rem → (actors.getD v none).isNone = true → mark ≤ v →
      (freeSlotScan actors mark t rem).isSome = true := by
  intro rem t v h1 h2 h3 h4
  cases hs : freeSlotScan actors mark t rem with
  | some u => rfl
  | none => exact absurd ⟨h3, h4⟩ (freeSlotScan_none actors mark rem t hs v h1 h2)

theorem set_none_of_getD_none {α : Type} :
    ∀ (l : List (Option α)) (i : ℕ), l.getD i none = none → l.set i none = l := by
  intro l
  induction l with
  | nil => intro i _; rfl
  | cons x xs ih =>
    intro i h
    cases i with
    | zero => simp only [List.getD_cons_zero] at h; simp [List.set, h]
    | succ n =>
      simp only [List.getD_cons_succ] at h
      simp [List.set, ih n h]

theorem getD_set_self {α : Type} :
    ∀ (l : List (Option α)) (j : ℕ), (l.set j none).getD j none = none := by
  intro l
  induction l with
  | nil => intro j; rfl
  | cons x xs ih =>
    intro j
    cases j with
    | zero => rfl
    | succ n => simpa [List.set, List.getD_cons_succ] using ih n

theorem getD_set_ne {α : Type} :
    ∀ (l : List (Option α)) (j i : ℕ), i ≠ j → (l.set j none).getD i none = l.getD i none := by
  intro l
  induction l with
  | nil => intro j i _; rfl
  | cons x xs ih =>
    intro j i hne
    cases j with
    | zero =>
      cases i with
      | zero => exact absurd rfl hne
      | succ m => rfl
    | succ n =>
      cases i with
      | zero => rfl
      | succ m => simpa [List.set, List.getD_cons_succ] using ih n m (by omega)

theorem clearFold_getD (l : List (Option ℕ)) :
    ∀ n i, (((List.range n).foldl (fun acc j => acc.set j none) l)).getD i none
      = if i < n then none else l.getD i none := by
  intro n
  induction n with
  | zero => intro i; simp
  | succ n ih =>
    intro i
    rw [List.range_succ, List.foldl_append]
    simp only [List.foldl_cons, List.foldl_nil]
    by_cases hin : i = n
    · subst hin
      rw [getD_set_self]
      simp
    · rw [getD_set_ne _ _ _ hin, ih i]
      by_cases hlt : i < n
      · rw [if_pos hlt, if_pos (by omega)]
      · rw [if_neg hlt, if_neg (by omega)]

theorem deleteTruck_mark (i : ℕ) (r : RegState) :
    (deleteTruck i r).m_free_actor_slot = r.m_free_actor_slot := by
  by_cases h : r.m_player_actor = (i : ℤ) <;> simp [deleteTruck, setCurrentTruckReg, h]

theorem deleteTruck_actors (i : ℕ) (r : RegState) :
    (deleteTruck i r).m_actors = r.m_actors.set i none := by
  by_cases h : r.m_player_actor = (i : ℤ) <;> simp [deleteTruck, setCurrentTruckReg, h]

theorem removeTruck_mark (truck : ℤ) (r : RegState) :
    (removeTruck truck r).m_free_actor_slot = r.m_free_actor_slot := by
  unfold removeTruck
  by_cases h1 : truck < 0 ∨ (r.m_free_actor_slot : ℤ) < truck
  · rw [if_pos h1]
  · rw [if_neg h1]
    by_cases h2 : (r.m_actors.getD truck.toNat none).isNone = true
    · rw [if_pos h2]
    · rw [if_neg h2]; exact deleteTruck_mark _ _

theorem createLocal_true_some (r : RegState) (t : ℕ) (r1 : RegState)
    (h : createLocalRigInstance true r = (some t, r1)) :
    r.m_free_actor_slot ≤ t ∧ r1.m_free_actor_slot = t + 1 := by
  unfold createLocalRigInstance getFreeTruckSlot at h
  cases hs : freeSlotScan r.m_actors r.m_free_actor_slot 0 r.m_actors.length with
  | none => rw [hs] at h; simp at h
  | some u =>
    rw [hs] at h
    simp only [if_pos] at h
    obtain ⟨h1, h2⟩ := Prod.mk.injEq .. ▸ h
    obtain ⟨hu1, hu2, hu3, hu4, hu5⟩ := freeSlotScan_some r.m_actors r.m_free_actor_slot _ 0 u hs
    cases h1
    rw [← h2]
    exact ⟨hu4, rfl⟩

theorem createLocal_true_none (r : RegState) (r1 : RegState)
    (h : createLocalRigInstance true r = (none, r1)) :
    r1.m_free_actor_slot = r.m_free_actor_slot := by
  unfold createLocalRigInstance getFreeTruckSlot at h
  cases hs : freeSlotScan r.m_actors r.m_free_actor_slot 0 r.m_actors.length with
  | none => rw [hs] at h; cases h; rfl
  | some u => rw [hs] at h; simp at h

theorem regRun_mark_mono (ops : List RegOp) :
    ∀ r, r.m_free_actor_slot ≤ (regRun ops r).2.m_free_actor_slot := by
  induction ops with
  | nil => intro r; exact le_refl _
  | cons op rest ih =>
    intro r
    cases op with
    | alloc =>
      rcases hc : createLocalRigInstance true r with ⟨o, r1⟩
      cases o with
      | some t =>
        obtain ⟨ha, hb⟩ := createLocal_true_some r t r1 hc
        calc r.m_free_actor_slot ≤ r1.m_free_actor_slot := by omega
          _ ≤ _ := by simpa [regRun, hc] using ih r1
      | none =>
        have hb := createLocal_true_none r r1 hc
        calc r.m_free_actor_slot = r1.m_free_actor_slot := hb.symm
          _ ≤ _ := by simpa [regRun, hc] using ih r1
    | del i =>
      have h1 := removeTruck_mark i r
      calc r.m_free_actor_slot = (removeTruck i r).m_free_actor_slot := h1.symm
        _ ≤ _ := by simpa [regRun] using ih (removeTruck i r)
    | clearAll =>
      have h1 : (cleanUpAllTrucks r).m_free_actor_slot = r.m_free_actor_slot := rfl
      calc r.m_free_actor_slot = (cleanUpAllTrucks r).m_free_actor_slot := h1.symm
        _ ≤ _ := by simpa [regRun] using ih (cleanUpAllTrucks r)

theorem regRun_trace_ge (ops : List RegOp) :
    ∀ r i, i ∈ (regRun ops r).1 → r.m_free_actor_slot ≤ i := by
  induction ops with
  | nil => intro r i h; simp [regRun] at h
  | cons op rest ih =>
    intro r i h
    cases op with
    | alloc =>
      rcases hc : createLocalRigInstance true r with ⟨o, r1⟩
      cases o with
      | some t =>
        obtain ⟨ha, hb⟩ := createLocal_true_some r t r1 hc
        simp only [regRun, hc] at h
        rcases List.mem_cons.mp h with heq | hmem
        · omega
        · have := ih r1 i hmem; omega
      | none =>
        have hb := createLocal_true_none r r1 hc
        simp only [regRun, hc] at h
        have := ih r1 i h; omega
    | del j =>
      simp only [regRun] at h
      have := ih (removeTruck j r) i h
      rw [removeTruck_mark] at this
      exact this
    | clearAll =>
      simp only [regRun] at h
      exact ih (cleanUpAllTrucks r) i h

theorem regRun_trace_nodup (ops : List RegOp) :
    ∀ r, ((regRun ops r).1).Nodup := by
  induction ops with
  | nil => intro r; simp [regRun]
  | cons op rest ih =>
    intro r
    cases op with
    | alloc =>
      rcases hc : createLocalRigInstance true r with ⟨o, r1⟩
      cases o with
      | some t =>
        obtain ⟨ha, hb⟩ := createLocal_true_some r t r1 hc
        simp only [regRun, hc]
        refine List.nodup_cons.mpr ⟨?_, ih r1⟩
        intro hmem
        have := regRun_trace_ge rest r1 t hmem
        omega
      | none => simp only [regRun, hc]; exact ih r1
    | del j => simp only [regRun]; exact ih _
    | clearAll => simp only [regRun]; exact ih _

/-- C5 counterexample: in the registry state with two slots, slot 0 freed by a
deletion and slot 1 occupied, and high-water mark 2, slot 0 is free yet
GetFreeTruckSlot fails, so allocation does not fail exactly when no slot in
the registry is free. -/
theorem c5_free_slot_below_mark :
    (((⟨[none, some 1], 2, -1, -1⟩ : RegState).m_actors.getD 0 none).isNone = true) ∧
    (getFreeTruckSlot ⟨[none, some 1], 2, -1, -1⟩).1 = none := by
  exact ⟨rfl, rfl⟩

/-- C5 amended: GetFreeTruckSlot returns the lowest currently empty slot index
at or above the high-water mark and advances the mark past it; it fails (a
failed spawn) exactly when every slot at or above the mark is occupied. A free
slot below the mark does not prevent failure, because slot reuse is disabled,
so failure is not equivalent to the whole registry being full. -/
theorem c5_allocate_spec (r : RegState) :
    (∀ t, (getFreeTruckSlot r).1 = some t →
      r.m_free_actor_slot ≤ t ∧ (r.m_actors.getD t none).isNone = true ∧
      (∀ u, u < t → ¬((r.m_actors.getD u none).isNone = true ∧ r.m_free_actor_slot ≤ u)) ∧
      (getFreeTruckSlot r).2.m_free_actor_slot = t + 1) ∧
    ((getFreeTruckSlot r).1 = none ↔
      ∀ t, r.m_free_actor_slot ≤ t → t < r.m_actors.length →
        (r.m_actors.getD t none).isSome = true) := by
  unfold getFreeTruckSlot
  cases hs : freeSlotScan r.m_actors r.m_free_actor_slot 0 r.m_actors.length with
  | some u =>
    obtain ⟨hu1, hu2, hu3, hu4, hu5⟩ :=
      freeSlotScan_some r.m_actors r.m_free_actor_slot _ 0 u hs
    constructor
    · intro t ht
      simp only at ht
      cases ht
      exact ⟨hu4, hu3, fun v hv hcon => hu5 v (Nat.zero_le v) hv hcon, rfl⟩
    · simp only
      constructor
      · intro h; cases h
      · intro hall
        have := hall u hu4 (by omega)
        rw [Option.isNone_iff_eq_none] at hu3
        rw [hu3] at this
        cases this
  | none =>
    constructor
    · intro t ht; simp only at ht; cases ht
    · simp only
      constructor
      · intro _ t ht1 ht2
        have hng := freeSlotScan_none r.m_actors r.m_free_actor_slot _ 0 hs t (Nat.zero_le t)
          (by omega)
        cases hval : r.m_actors.getD t none with
        | some a => rfl
        | none => exact absurd ⟨by rw [hval]; rfl, ht1⟩ hng
      · intro _; trivial

/-- Witness for c5_allocate_spec in a state where slot 0 is occupied, slot 1 is
free and the mark is 1: allocation returns slot 1 and advances the mark to 2. -/
theorem c5_allocate_spec_witness :
    ((getFreeTruckSlot ⟨[some 0, none], 1, -1, -1⟩).1 = some 1) ∧
    ((⟨[some 0, none], 1, -1, -1⟩ : RegState).m_free_actor_slot ≤ 1 ∧
     (((⟨[some 0, none], 1, -1, -1⟩ : RegState).m_actors.getD 1 none).isNone = true) ∧
     (∀ u, u < 1 →
       ¬((((⟨[some 0, none], 1, -1, -1⟩ : RegState).m_actors.getD u none).isNone = true) ∧
         (⟨[some 0, none], 1, -1, -1⟩ : RegState).m_free_actor_slot ≤ u)) ∧
     (getFreeTruckSlot ⟨[some 0, none], 1, -1, -1⟩).2.m_free_actor_slot = 1 + 1) :=
  ⟨rfl, (c5_allocate_spec ⟨[some 0, none], 1, -1, -1⟩).1 1 rfl⟩

/-- C6: over every sequence of allocate, delete and clear-all operations the
high-water mark m_free_actor_slot is monotonically non-decreasing; DeleteTruck
empties the slot but never changes the mark; CleanUpAllTrucks empties every
slot and resets the player selection to none while leaving the mark untouched;
and the slot indices handed out by allocation within a session are pairwise
distinct, so an allocated index is never returned again. -/
theorem c6_mark_monotone :
    (∀ ops r, r.m_free_actor_slot ≤ (regRun ops r).2.m_free_actor_slot) ∧
    (∀ i r, (deleteTruck i r).m_free_actor_slot = r.m_free_actor_slot ∧
      (deleteTruck i r).m_actors.getD i none = none) ∧
    (∀ r, AllocInv r →
      (∀ i, (cleanUpAllTrucks r).m_actors.getD i none = none) ∧
      (cleanUpAllTrucks r).m_player_actor = -1 ∧
      (cleanUpAllTrucks r).m_free_actor_slot = r.m_free_actor_slot) ∧
    (∀ ops r, ((regRun ops r).1).Nodup) := by
  refine ⟨regRun_mark_mono, ?_, ?_, regRun_trace_nodup⟩
  · intro i r
    refine ⟨deleteTruck_mark i r, ?_⟩
    rw [deleteTruck_actors]
    exact getD_set_self _ _
  · intro r hinv
    refine ⟨?_, rfl, rfl⟩
    intro i
    show ((List.range r.m_free_actor_slot).foldl (fun acc j => acc.set j none)
      r.m_actors).getD i none = none
    rw [clearFold_getD]
    by_cases h : i < r.m_free_actor_slot
    · rw [if_pos h]
    · rw [if_neg h]
      exact hinv i (by omega)

/-- Witness for c6_mark_monotone: the clear-all component applied to a concrete
two-slot registry satisfying the allocation invariant. -/
theorem c6_mark_monotone_witness :
    AllocInv ⟨[some 0, some 1], 2, 1, -1⟩ ∧
    ((∀ i, (cleanUpAllTrucks ⟨[some 0, some 1], 2, 1, -1⟩).m_actors.getD i none = none) ∧
     (cleanUpAllTrucks ⟨[some 0, some 1], 2, 1, -1⟩).m_player_actor = -1 ∧
     (cleanUpAllTrucks ⟨[some 0, some 1], 2, 1, -1⟩).m_free_actor_slot
       = (⟨[some 0, some 1], 2, 1, -1⟩ : RegState).m_free_actor_slot) := by
  have hinv : AllocInv ⟨[some 0, some 1], 2, 1, -1⟩ := by
    intro t ht
    match t, ht with
    | (n + 2), _ => rfl
  exact ⟨hinv, c6_mark_monotone.2.2.1 _ hinv⟩

/-- C9: when the constructed actor validates as INVALID, CreateLocalRigInstance
returns failure and registers no actor (the slot table is unchanged), yet the
high-water mark has already been advanced past the allocated slot and is not
rolled back: the mark ends at one past the allocated slot, and any later
allocation returns a strictly larger index, so the failed spawn permanently
consumes one slot index of the session capacity. -/
theorem c9_invalid_spawn_consumes_slot (r : RegState) (t : ℕ)
    (h : (getFreeTruckSlot r).1 = some t) :
    (createLocalRigInstance false r).1 = none ∧
    (createLocalRigInstance false r).2.m_actors = r.m_actors ∧
    (createLocalRigInstance false r).2.m_free_actor_slot = t + 1 ∧
    r.m_free_actor_slot ≤ t ∧
    (∀ u, (getFreeTruckSlot (createLocalRigInstance false r).2).1 = some u → t < u) := by
  unfold getFreeTruckSlot at h
  cases hs : freeSlotScan r.m_actors r.m_free_actor_slot 0 r.m_actors.length with
  | none => rw [hs] at h; cases h
  | some u =>
    rw [hs] at h
    simp only [Option.some.injEq] at h
    subst h
    obtain ⟨hu1, hu2, hu3, hu4, hu5⟩ :=
      freeSlotScan_some r.m_actors r.m_free_actor_slot _ 0 u hs
    have hceval : createLocalRigInstance false r
        = (none, deleteTruck u { r with m_free_actor_slot := u + 1 }) := by
      unfold createLocalRigInstance getFreeTruckSlot
      rw [hs]
      rfl
    rw [Option.isNone_iff_eq_none] at hu3
    have hacts : (deleteTruck u { r with m_free_actor_slot := u + 1 }).m_actors
        = r.m_actors := by
      rw [deleteTruck_actors]
      exact set_none_of_getD_none _ _ hu3
    refine ⟨by rw [hceval], by rw [hceval]; exact hacts, ?_, hu4, ?_⟩
    · rw [hceval]
      exact deleteTruck_mark _ _
    · intro v hv
      rw [hceval] at hv
      unfold getFreeTruckSlot at hv
      cases hs2 : freeSlotScan (deleteTruck u { r with m_free_actor_slot := u + 1 }).m_actors
          (deleteTruck u { r with m_free_actor_slot := u + 1 }).m_free_actor_slot 0
          (deleteTruck u { r with m_free_actor_slot := u + 1 }).m_actors.length with
      | none => rw [hs2] at hv; cases hv
      | some w =>
        rw [hs2] at hv
        simp only [Option.some.injEq] at hv
        subst hv
        obtain ⟨_, _, _, hw4, _⟩ := freeSlotScan_some _ _ _ 0 w hs2
        rw [deleteTruck_mark] at hw4
        simp only at hw4
        omega

/-- Witness for c9_invalid_spawn_consumes_slot on a one-slot empty registry. -/
theorem c9_invalid_spawn_consumes_slot_witness :
    ((getFreeTruckSlot ⟨[none], 0, -1, -1⟩).1 = some 0) ∧
    ((createLocalRigInstance false ⟨[none], 0, -1, -1⟩).1 = none ∧
     (createLocalRigInstance false ⟨[none], 0, -1, -1⟩).2.m_actors
       = (⟨[none], 0, -1, -1⟩ : RegState).m_actors ∧
     (createLocalRigInstance false ⟨[none], 0, -1, -1⟩).2.m_free_actor_slot = 0 + 1 ∧
     (⟨[none], 0, -1, -1⟩ : RegState).m_free_actor_slot ≤ 0 ∧
     (∀ u, (getFreeTruckSlot (createLocalRigInstance false ⟨[none], 0, -1, -1⟩).2).1 = some u →
       0 < u)) :=
  ⟨rfl, c9_invalid_spawn_consumes_slot ⟨[none], 0, -1, -1⟩ 0 rfl⟩

/-! ## Stream health query (checkStreamsOK) -/

/-- The activity status of an actor (Actor::SimState). -/
inductive SimState
  | LOCAL_SIMULATED
  | LOCAL_SLEEPING
  | NETWORKED_OK
  | INVALID
deriving DecidableEq

/-- The fields of an actor read by checkStreamsOK. -/
structure NetActor where
  ar_sim_state : SimState
  ar_net_source_id : ℤ
deriving DecidableEq

/-- Network-relevant state of ActorManager: the actor slots and the std::map
m_stream_mismatches, modelled as a partial function from source id to the
vector of mismatched stream ids. -/
structure NetMgr where
  m_actors : List (Option NetActor)
  m_stream_mismatches : ℤ → Option (List ℤ)

/-- The std::map operator[] semantics: look up the key, default-inserting an
empty vector when the key is absent; returns the possibly updated map and the
value found. -/
def mapBracket (m : ℤ → Option (List ℤ)) (k : ℤ) : (ℤ → Option (List ℤ)) × List ℤ :=
  match m k with
  | some v => (m, v)
  | none => (fun x => if x = k then some [] else m x, [])

/-- The registry scan of checkStreamsOK (lines 457-468): is there a
NETWORKED_OK actor whose ar_net_source_id equals sourceid. -/
def netScan (acts : List (Option NetActor)) (sourceid : ℤ) : Bool :=
  (List.range acts.length).any (fun t =>
    match acts.getD t none with
    | none => false
    | some a => decide (a.ar_sim_state = SimState.NETWORKED_OK ∧ a.ar_net_source_id = sourceid))

/-- ActorManager.checkStreamsOK (BeamFactory.cpp lines 452-471): indexing
m_stream_mismatches[sourceid] default-inserts an empty entry for an absent
source id; return 0 when the mismatch vector is non-empty, otherwise 1 when
some NETWORKED_OK actor in the registry has the source id, otherwise 2. -/
def checkStreamsOK (sourceid : ℤ) (mgr : NetMgr) : ℕ × NetMgr :=
  let p := mapBracket mgr.m_stream_mismatches sourceid
  let mgr1 : NetMgr := { mgr with m_stream_mismatches := p.1 }
  if p.2.length > 0 then (0, mgr1)
  else if netScan mgr1.m_actors sourceid then (1, mgr1)
  else (2, mgr1)

theorem netScan_iff (acts : List (Option NetActor)) (sourceid : ℤ) :
    netScan acts sourceid = true ↔
    ∃ t a, acts.getD t none = some a ∧
      a.ar_sim_state = SimState.NETWORKED_OK ∧ a.ar_net_source_id = sourceid := by
  unfold netScan
  rw [List.any_eq_true]
  constructor
  · rintro ⟨t, _, hf⟩
    cases hga : acts.getD t none with
    | none => rw [hga] at hf; cases hf
    | some a =>
      rw [hga] at hf
      exact ⟨t, a, hga, of_decide_eq_true hf⟩
  · rintro ⟨t, a, hga, h1, h2⟩
    have htlen : t < acts.length := by
      by_contra hge
      rw [List.getD_eq_default _ _ (by omega)] at hga
      cases hga
    refine ⟨t, List.mem_range.mpr htlen, ?_⟩
    rw [hga]
    exact decide_eq_true ⟨h1, h2⟩

/-- C10: checkStreamsOK is not read-only: for a sourceid absent from the
stream-mismatch map it inserts a fresh empty entry (other keys unchanged, the
actor slots unchanged, and a present entry unchanged); its return value is 0
iff the mismatch set of the source is non-empty, 1 iff that set is empty or
absent and some NETWORKED_OK actor in the registry has the source id, and 2
otherwise. -/
theorem c10_checkStreamsOK_spec (sourceid : ℤ) (mgr : NetMgr) :
    ((checkStreamsOK sourceid mgr).2.m_actors = mgr.m_actors) ∧
    (mgr.m_stream_mismatches sourceid = none →
      (checkStreamsOK sourceid mgr).2.m_stream_mismatches sourceid = some [] ∧
      ∀ k, k ≠ sourceid →
        (checkStreamsOK sourceid mgr).2.m_stream_mismatches k = mgr.m_stream_mismatches k) ∧
    (mgr.m_stream_mismatches sourceid ≠ none →
      (checkStreamsOK sourceid mgr).2.m_stream_mismatches = mgr.m_stream_mismatches) ∧
    ((checkStreamsOK sourceid mgr).1 = 0 ↔
      ∃ l, mgr.m_stream_mismatches sourceid = some l ∧ l ≠ []) ∧
    ((checkStreamsOK sourceid mgr).1 = 1 ↔
      (∀ l, mgr.m_stream_mismatches sourceid = some l → l = []) ∧
      ∃ t a, mgr.m_actors.getD t none = some a ∧
        a.ar_sim_state = SimState.NETWORKED_OK ∧ a.ar_net_source_id = sourceid) ∧
    ((checkStreamsOK sourceid mgr).1 = 2 ↔
      (∀ l, mgr.m_stream_mismatches sourceid = some l → l = []) ∧
      ¬∃ t a, mgr.m_actors.getD t none = some a ∧
        a.ar_sim_state = SimState.NETWORKED_OK ∧ a.ar_net_source_id = sourceid) := by
  cases hmb : mgr.m_stream_mismatches sourceid with
  | some v =>
    have hp : mapBracket mgr.m_stream_mismatches sourceid = (mgr.m_stream_mismatches, v) := by
      unfold mapBracket; rw [hmb]
    by_cases hv : v.length > 0
    · have heval : checkStreamsOK sourceid mgr
          = (0, { mgr with m_stream_mismatches := mgr.m_stream_mismatches }) := by
        unfold checkStreamsOK
        rw [hp]
        simp only [hv, if_pos]
      rw [heval]
      refine ⟨rfl, ?_, fun _ => rfl, ?_, ?_, ?_⟩
      · intro hc; exact Option.noConfusion hc
      · constructor
        · intro _
          refine ⟨v, rfl, ?_⟩
          intro hnil; rw [hnil] at hv; simp at hv
        · intro _; rfl
      · constructor
        · intro h; simp at h
        · rintro ⟨hall, -⟩
          have hv0 := hall v rfl
          rw [hv0] at hv; simp at hv
      · constructor
        · intro h; simp at h
        · rintro ⟨hall, -⟩
          have hv0 := hall v rfl
          rw [hv0] at hv; simp at hv
    · have hvnil : v = [] := List.length_eq_zero.mp (by omega)
      subst hvnil
      by_cases hscan : netScan mgr.m_actors sourceid = true
      · have heval : checkStreamsOK sourceid mgr
            = (1, { mgr with m_stream_mismatches := mgr.m_stream_mismatches }) := by
          unfold checkStreamsOK
          rw [hp]
          simp only [List.length_nil, gt_iff_lt, lt_irrefl, if_false]
          rw [if_pos hscan]
        rw [heval]
        refine ⟨rfl, ?_, fun _ => rfl, ?_, ?_, ?_⟩
        · intro hc; exact Option.noConfusion hc
        · constructor
          · intro h; simp at h
          · rintro ⟨l, hl, hne⟩
            injection hl with h2
            exact absurd h2.symm hne
        · constructor
          · intro _
            refine ⟨?_, (netScan_iff _ _).mp hscan⟩
            intro l hl
            injection hl with h2
            exact h2.symm
          · intro _; rfl
        · constructor
          · intro h; simp at h
          · rintro ⟨-, hno⟩
            exact absurd ((netScan_iff _ _).mp hscan) hno
      · have heval : checkStreamsOK sourceid mgr
            = (2, { mgr with m_stream_mismatches := mgr.m_stream_mismatches }) := by
          unfold checkStreamsOK
          rw [hp]
          simp only [List.length_nil, gt_iff_lt, lt_irrefl, if_false]
          rw [if_neg hscan]
        rw [heval]
        refine ⟨rfl, ?_, fun _ => rfl, ?_, ?_, ?_⟩
        · intro hc; exact Option.noConfusion hc
        · constructor
          · intro h; simp at h
          · rintro ⟨l, hl, hne⟩
            injection hl with h2
            exact absurd h2.symm hne
        · constructor
          · intro h; simp at h
          · rintro ⟨-, hyes⟩
            exact absurd ((netScan_iff _ _).mpr hyes) hscan
        · constructor
          · intro _
            refine ⟨?_, ?_⟩
            · intro l hl
              injection hl with h2
              exact h2.symm
            · intro hyes
              exact absurd ((netScan_iff _ _).mpr hyes) hscan
          · intro _; rfl
  | none =>
    have hp : mapBracket mgr.m_stream_mismatches sourceid
        = (fun x => if x = sourceid then some [] else mgr.m_stream_mismatches x, []) := by
      unfold mapBracket; rw [hmb]
    by_cases hscan : netScan mgr.m_actors sourceid = true
    · have heval : checkStreamsOK sourceid mgr
          = (1, { mgr with m_stream_mismatches :=
              fun x => if x = sourceid then some [] else mgr.m_stream_mismatches x }) := by
        unfold checkStreamsOK
        rw [hp]
        simp only [List.length_nil, gt_iff_lt, lt_irrefl, if_false]
        rw [if_pos hscan]
      rw [heval]
      refine ⟨rfl, ?_, ?_, ?_, ?_, ?_⟩
      · intro _
        exact ⟨by simp, fun k hk => by simp [hk]⟩
      · intro hc; exact absurd rfl hc
      · constructor
        · intro h; simp at h
        · rintro ⟨l, hl, -⟩
          exact Option.noConfusion hl
      · constructor
        · intro _
          exact ⟨fun l hl => Option.noConfusion hl, (netScan_iff _ _).mp hscan⟩
        · intro _; rfl
      · constructor
        · intro h; simp at h
        · rintro ⟨-, hno⟩
          exact absurd ((netScan_iff _ _).mp hscan) hno
    · have heval : checkStreamsOK sourceid mgr
          = (2, { mgr with m_stream_mismatches :=
              fun x => if x = sourceid then some [] else mgr.m_stream_mismatches x }) := by
        unfold checkStreamsOK
        rw [hp]
        simp only [List.length_nil, gt_iff_lt, lt_irrefl, if_false]
        rw [if_neg hscan]
      rw [heval]
      refine ⟨rfl, ?_, ?_, ?_, ?_, ?_⟩
      · intro _
        exact ⟨by simp, fun k hk => by simp [hk]⟩
      · intro hc; exact absurd rfl hc
      · constructor
        · intro h; simp at h
        · rintro ⟨l, hl, -⟩
          exact Option.noConfusion hl
      · constructor
        · intro h; simp at h
        · rintro ⟨-, hyes⟩
          exact absurd ((netScan_iff _ _).mpr hyes) hscan
      · constructor
        · intro _
          refine ⟨fun l hl => Option.noConfusion hl, ?_⟩
          intro hyes
          exact absurd ((netScan_iff _ _).mpr hyes) hscan
        · intro _; rfl

/-- Witness for c10_checkStreamsOK_spec: one NETWORKED_OK actor with source id
7 and an initially empty mismatch map; the query inserts the empty entry for
key 7 and returns 1. -/
theorem c10_checkStreamsOK_spec_witness :
    ((⟨[some ⟨SimState.NETWORKED_OK, 7⟩], fun _ => none⟩ : NetMgr).m_stream_mismatches 7
      = none) ∧
    ((checkStreamsOK 7 ⟨[some ⟨SimState.NETWORKED_OK, 7⟩], fun _ => none⟩).2.m_stream_mismatches 7
      = some [] ∧
     ∀ k, k ≠ 7 →
      (checkStreamsOK 7 ⟨[some ⟨SimState.NETWORKED_OK, 7⟩], fun _ => none⟩).2.m_stream_mismatches k
        = (⟨[some ⟨SimState.NETWORKED_OK, 7⟩], fun _ => none⟩ : NetMgr).m_stream_mismatches k) ∧
    ((checkStreamsOK 7 ⟨[some ⟨SimState.NETWORKED_OK, 7⟩], fun _ => none⟩).1 = 1 ↔
      (∀ l, (⟨[some ⟨SimState.NETWORKED_OK, 7⟩], fun _ => none⟩ : NetMgr).m_stream_mismatches 7
          = some l → l = []) ∧
      ∃ t a,
        (⟨[some ⟨SimState.NETWORKED_OK, 7⟩], fun _ => none⟩ : NetMgr).m_actors.getD t none
          = some a ∧
        a.ar_sim_state = SimState.NETWORKED_OK ∧ a.ar_net_source_id = 7) :=
  ⟨rfl,
   (c10_checkStreamsOK_spec 7 ⟨[some ⟨SimState.NETWORKED_OK, 7⟩], fun _ => none⟩).2.1 rfl,
   (c10_checkStreamsOK_spec 7 ⟨[some ⟨SimState.NETWORKED_OK, 7⟩], fun _ => none⟩).2.2.2.2.1⟩

/-! ## Sleep/wake activity state machine (RecursiveActivation,
UpdateSleepingState, BeamFactory.cpp lines 512-664) -/

/-- An axis-aligned bounding box with rational coordinates (the external Ogre
AxisAlignedBox restricted to finite boxes). -/
structure AABB where
  minx : ℚ
  miny : ℚ
  minz : ℚ
  maxx : ℚ
  maxy : ℚ
  maxz : ℚ
deriving DecidableEq

/-- Modelled from the spec: the external Ogre AxisAlignedBox.intersects is
axis-aligned overlap of closed boxes on all three axes. -/
def aabbOverlap (a b : AABB) : Bool :=
  decide (¬(a.maxx < b.minx ∨ a.maxy < b.miny ∨ a.maxz < b.minz ∨
            b.maxx < a.minx ∨ b.maxy < a.miny ∨ b.maxz < a.minz))

/-- Dilation of a box about its own center by a scale factor, per axis, as in
ActorManager.intersectionAABB (lines 514-525). -/
def dilate (box : AABB) (scale : ℚ) : AABB :=
  { minx := (box.minx + box.maxx) / 2 - (box.maxx - box.minx) / 2 * scale
    miny := (box.miny + box.maxy) / 2 - (box.maxy - box.miny) / 2 * scale
    minz := (box.minz + box.maxz) / 2 - (box.maxz - box.minz) / 2 * scale
    maxx := (box.minx + box.maxx) / 2 + (box.maxx - box.minx) / 2 * scale
    maxy := (box.miny + box.maxy) / 2 + (box.maxy - box.miny) / 2 * scale
    maxz := (box.minz + box.maxz) / 2 + (box.maxz - box.minz) / 2 * scale }

/-- ActorManager.intersectionAABB (lines 512-528): when the scale differs from
1 dilate both boxes about their centers, then test overlap. -/
def intersectionAABB (a b : AABB) (scale : ℚ) : Bool :=
  if scale ≠ 1 then aabbOverlap (dilate a scale) (dilate b scale)
  else aabbOverlap a b

/-- The fields of an actor read and written by the sleep/wake state machine.
The velocity_sq field holds the squared length of getVelocity(), an opaque
per-frame kernel value set from outside this core. -/
structure ActorS where
  ar_sim_state : SimState
  ar_sleep_counter : ℚ
  velocity_sq : ℚ
  ar_bounding_box : AABB
  ar_predicted_bounding_box : AABB
  ar_collision_bounding_boxes : List AABB
  ar_predicted_coll_bounding_boxes : List AABB
deriving DecidableEq

/-- ActorManager.truckIntersectionAABB (lines 530-533). -/
def truckIntersectionAABB (acts : List (Option ActorS)) (a b : ℕ) (scale : ℚ) : Bool :=
  match acts.getD a none, acts.getD b none with
  | some x, some y => intersectionAABB x.ar_bounding_box y.ar_bounding_box scale
  | _, _ => false

/-- ActorManager.predictTruckIntersectionAABB (lines 535-538). -/
def predictTruckIntersectionAABB (acts : List (Option ActorS)) (a b : ℕ) (scale : ℚ) : Bool :=
  match acts.getD a none, acts.getD b none with
  | some x, some y =>
    intersectionAABB x.ar_predicted_bounding_box y.ar_predicted_bounding_box scale
  | _, _ => false

/-- ActorManager.truckIntersectionCollAABB (lines 540-567): per-segment
collision boxes when available on either side, whole-body fallback. -/
def truckIntersectionCollAABB (acts : List (Option ActorS)) (a b : ℕ) (scale : ℚ) : Bool :=
  match acts.getD a none, acts.getD b none with
  | some x, some y =>
    if x.ar_collision_bounding_boxes.isEmpty ∧ y.ar_collision_bounding_boxes.isEmpty then
      truckIntersectionAABB acts a b scale
    else if x.ar_collision_bounding_boxes.isEmpty then
      y.ar_collision_bounding_boxes.any (fun bb => intersectionAABB bb x.ar_bounding_box scale)
    else if y.ar_collision_bounding_boxes.isEmpty then
      x.ar_collision_bounding_boxes.any (fun bb => intersectionAABB bb y.ar_bounding_box scale)
    else
      x.ar_collision_bounding_boxes.any (fun ba =>
        y.ar_collision_bounding_boxes.any (fun bb => intersectionAABB ba bb scale))
  | _, _ => false

/-- ActorManager.predictTruckIntersectionCollAABB (lines 569-596). -/
def predictTruckIntersectionCollAABB (acts : List (Option ActorS)) (a b : ℕ) (scale : ℚ) :
    Bool :=
  match acts.getD a none, acts.getD b none with
  | some x, some y =>
    if x.ar_predicted_coll_bounding_boxes.isEmpty ∧
       y.ar_predicted_coll_bounding_boxes.isEmpty then
      predictTruckIntersectionAABB acts a b scale
    else if x.ar_predicted_coll_bounding_boxes.isEmpty then
      y.ar_predicted_coll_bounding_boxes.any
        (fun bb => intersectionAABB bb x.ar_predicted_bounding_box scale)
    else if y.ar_predicted_coll_bounding_boxes.isEmpty then
      x.ar_predicted_coll_bounding_boxes.any
        (fun bb => intersectionAABB bb y.ar_predicted_bounding_box scale)
    else
      x.ar_predicted_coll_bounding_boxes.any (fun ba =>
        y.ar_predicted_coll_bounding_boxes.any (fun bb => intersectionAABB ba bb scale))
  | _, _ => false

/-- The body of the loop over t inside ActorManager.RecursiveActivation
(lines 605-620), with the recursive call abstracted as recur: a
LOCAL_SIMULATED actor whose actual collision geometry overlaps that of j at
dilation 1.2 has its sleep counter reset and is recursed into; a
LOCAL_SLEEPING actor whose predicted collision geometry overlaps that of j at
dilation 1.0 (the default scale argument, from the header) is woken, its
counter reset, and recursed into. The state is the pair of the visited bitset
and the actor slots. -/
def recActBody (recur : ℕ → List Bool × List (Option ActorS) → List Bool × List (Option ActorS))
    (j : ℕ) (acc : List Bool × List (Option ActorS)) (t : ℕ) :
    List Bool × List (Option ActorS) :=
  if t = j ∨ (acc.2.getD t none).isNone = true ∨ acc.1.getD t false = true then acc
  else
    let acc1 :=
      match acc.2.getD t none with
      | some a1 =>
        if a1.ar_sim_state = SimState.LOCAL_SIMULATED ∧
           truckIntersectionCollAABB acc.2 t j (6 / 5) = true then
          recur t (acc.1, acc.2.set t (some { a1 with ar_sleep_counter := 0 }))
        else acc
      | none => acc
    match acc1.2.getD t none with
    | some a2 =>
      if a2.ar_sim_state = SimState.LOCAL_SLEEPING ∧
         predictTruckIntersectionCollAABB acc1.2 t j 1 = true then
        recur t (acc1.1, acc1.2.set t
          (some { a2 with ar_sleep_counter := 0
                          ar_sim_state := SimState.LOCAL_SIMULATED }))
      else acc1
    | none => acc1

/-- ActorManager.RecursiveActivation (lines 598-621), fuel-indexed to make the
depth-first recursion structural; any fuel above the actor count is enough
for every call made by UpdateSleepingState, since each productive frame marks
one unvisited index and an unproductive frame returns without recursing. -/
def recursiveActivation :
    ℕ → ℕ → List Bool × List (Option ActorS) → List Bool × List (Option ActorS)
  | 0, _, s => s
  | fuel + 1, j, s =>
    match s.2.getD j none with
    | none => s
    | some aj =>
      if s.1.getD j false = true ∨ aj.ar_sim_state ≠ SimState.LOCAL_SIMULATED then s
      else
        (List.range s.2.length).foldl (recActBody (recursiveActivation fuel) j)
          (s.1.set j true, s.2)

/-- The ActorManager fields read and written by UpdateSleepingState. -/
structure SleepMgr where
  m_actors : List (Option ActorS)
  m_player_actor : ℤ
  m_forced_active : Bool
deriving DecidableEq

/-- ActorManager.getTruck (lines 1146-1153). -/
def getTruckS (acts : List (Option ActorS)) (number : ℤ) : Option ActorS :=
  if 0 ≤ number ∧ number < (acts.length : ℤ) then acts.getD number.toNat none else none

/-- The per-actor body of the sleep-counter loop of UpdateSleepingState (lines
625-643): a LOCAL_SIMULATED actor whose squared speed is at most 0.01
accumulates dt on its sleep counter and falls asleep once the counter reaches
10 seconds. -/
def sleepStep (dt : ℚ) : Option ActorS → Option ActorS
  | none => none
  | some a =>
    if a.ar_sim_state ≠ SimState.LOCAL_SIMULATED then some a
    else if a.velocity_sq > 1 / 100 then some a
    else
      let c := a.ar_sleep_counter + dt
      if c ≥ 10 then
        some { a with ar_sleep_counter := c, ar_sim_state := SimState.LOCAL_SLEEPING }
      else some { a with ar_sleep_counter := c }

/-- The sleep-counter loop of UpdateSleepingState over all slots. -/
def sleepCountLoop (dt : ℚ) (acts : List (Option ActorS)) : List (Option ActorS) :=
  acts.map (sleepStep dt)

/-- ActorManager.UpdateSleepingState (lines 623-664): accumulate sleep
counters (unless the force-active override is set), wake the player actor if
it is sleeping, then run the recursive reachability activation from the
player actor and from every snowball seed (a LOCAL_SIMULATED actor with zero
sleep counter), all passes sharing one visited bitset. -/
def updateSleepingState (dt : ℚ) (m : SleepMgr) : SleepMgr :=
  let acts0 := if m.m_forced_active then m.m_actors else sleepCountLoop dt m.m_actors
  let acts1 :=
    match getTruckS acts0 m.m_player_actor with
    | some ct =>
      if ct.ar_sim_state = SimState.LOCAL_SLEEPING then
        acts0.set m.m_player_actor.toNat
          (some { ct with ar_sim_state := SimState.LOCAL_SIMULATED })
      else acts0
    | none => acts0
  let visited0 : List Bool := List.replicate acts1.length false
  let s1 :=
    match getTruckS acts1 m.m_player_actor with
    | some ct =>
      if ct.ar_sim_state = SimState.LOCAL_SIMULATED then
        recursiveActivation (acts1.length + 1) m.m_player_actor.toNat
          (visited0, acts1.set m.m_player_actor.toNat (some { ct with ar_sleep_counter := 0 }))
      else (visited0, acts1)
    | none => (visited0, acts1)
  let s2 :=
    (List.range s1.2.length).foldl (fun acc t =>
      match acc.2.getD t none with
      | some a =>
        if a.ar_sim_state = SimState.LOCAL_SIMULATED ∧ a.ar_sleep_counter = 0 then
          recursiveActivation (acc.2.length + 1) t acc
        else acc
      | none => acc) s1
  { m with m_actors := s2.2 }

/-- Set the per-frame squared velocity of the actor in slot 0; the physics
kernels update velocities between frames, so the value is exogenous input to
the state machine. -/
def setVelocity0 (v : ℚ) (m : SleepMgr) : SleepMgr :=
  { m with m_actors :=
      match m.m_actors.getD 0 none with
      | some a => m.m_actors.set 0 (some { a with velocity_sq := v })
      | none => m.m_actors }

/-- Run a sequence of frames through UpdateSleepingState, each frame a pair of
the frame time dt and the squared velocity the physics gave the slot-0 actor
for that frame. -/
def runFrames : List (ℚ × ℚ) → SleepMgr → SleepMgr
  | [], m => m
  | (dt, v) :: rest, m => runFrames rest (updateSleepingState dt (setVelocity0 v m))

/-- Total simulated time over the frames in which the actor was at or below
the speed threshold (squared speed at most 0.01). -/
def slowTime : List (ℚ × ℚ) → ℚ
  | [] => 0
  | (dt, v) :: rest => (if v ≤ 1 / 100 then dt else 0) + slowTime rest

theorem slowTime_nonneg (frames : List (ℚ × ℚ)) (h : ∀ p ∈ frames, 0 ≤ p.1) :
    0 ≤ slowTime frames := by
  induction frames with
  | nil => simp [slowTime]
  | cons p rest ih =>
    obtain ⟨dt, v⟩ := p
    have hdt : (0 : ℚ) ≤ dt := h (dt, v) (List.mem_cons_self _ _)
    have hrest := ih (fun q hq => h q (List.mem_cons_of_mem _ hq))
    simp only [slowTime]
    by_cases hv : v ≤ 1 / 100
    · rw [if_pos hv]; linarith
    · rw [if_neg hv]; linarith

theorem getTruckS_neg_one (acts : List (Option ActorS)) : getTruckS acts (-1) = none := by
  unfold getTruckS
  rw [if_neg]
  rintro ⟨h1, -⟩
  norm_num at h1

theorem recursiveActivation_singleton_actors (fuel : ℕ) (v : List Bool) (x : Option ActorS) :
    (recursiveActivation fuel 0 (v, [x])).2 = [x] := by
  cases fuel with
  | zero => rfl
  | succ n =>
    cases x with
    | none => rfl
    | some a =>
      simp only [recursiveActivation, List.getD_cons_zero]
      by_cases hc : v.getD 0 false = true ∨ a.ar_sim_state ≠ SimState.LOCAL_SIMULATED
      · rw [if_pos hc]
      · rw [if_neg hc]
        rw [show (List.range ((v, [some a]).2.length)) = [0] from rfl]
        simp [recActBody]

theorem sleepStep_isSome (dt : ℚ) (a : ActorS) : ∃ b, sleepStep dt (some a) = some b := by
  simp only [sleepStep]
  by_cases h1 : a.ar_sim_state ≠ SimState.LOCAL_SIMULATED
  · rw [if_pos h1]; exact ⟨a, rfl⟩
  · rw [if_neg h1]
    by_cases h2 : a.velocity_sq > 1 / 100
    · rw [if_pos h2]; exact ⟨a, rfl⟩
    · rw [if_neg h2]
      by_cases h3 : a.ar_sleep_counter + dt ≥ 10
      · simp only [if_pos h3]; exact ⟨_, rfl⟩
      · simp only [if_neg h3]; exact ⟨_, rfl⟩

theorem updateSleepingState_singleton (dt : ℚ) (a : ActorS) :
    updateSleepingState dt ⟨[some a], -1, false⟩ = ⟨[sleepStep dt (some a)], -1, false⟩ := by
  obtain ⟨b, hb⟩ := sleepStep_isSome dt a
  have hmap : sleepCountLoop dt [some a] = [some b] := by
    simp [sleepCountLoop, hb]
  simp only [updateSleepingState, hmap, getTruckS_neg_one, Bool.false_eq_true, if_false]
  rw [show List.range ([some b] : List (Option ActorS)).length = [0] from rfl]
  simp only [List.foldl_cons, List.foldl_nil, List.getD_cons_zero]
  by_cases hcond : b.ar_sim_state = SimState.LOCAL_SIMULATED ∧ b.ar_sleep_counter = 0
  · rw [if_pos hcond]
    rw [SleepMgr.mk.injEq]
    refine ⟨?_, rfl, rfl⟩
    rw [recursiveActivation_singleton_actors, hb]
  · rw [if_neg hcond]
    rw [SleepMgr.mk.injEq]
    exact ⟨by rw [hb], rfl, rfl⟩

theorem runFrames_cons (dt v : ℚ) (rest : List (ℚ × ℚ)) (m : SleepMgr) :
    runFrames ((dt, v) :: rest) m = runFrames rest (updateSleepingState dt (setVelocity0 v m)) :=
  rfl

theorem setVelocity0_singleton (v : ℚ) (a : ActorS) (p : ℤ) (f : Bool) :
    setVelocity0 v ⟨[some a], p, f⟩ = ⟨[some { a with velocity_sq := v }], p, f⟩ := by
  simp [setVelocity0]

theorem c3_run_sleeping (frames : List (ℚ × ℚ)) :
    ∀ a : ActorS, a.ar_sim_state = SimState.LOCAL_SLEEPING →
    ∃ aF, (runFrames frames ⟨[some a], -1, false⟩).m_actors = [some aF] ∧
      aF.ar_sim_state = SimState.LOCAL_SLEEPING ∧
      aF.ar_sleep_counter = a.ar_sleep_counter := by
  induction frames with
  | nil => intro a h; exact ⟨a, rfl, h, rfl⟩
  | cons p rest ih =>
    intro a h
    obtain ⟨dt, v⟩ := p
    rw [runFrames_cons, setVelocity0_singleton, updateSleepingState_singleton]
    have hbcond : ({ a with velocity_sq := v } : ActorS).ar_sim_state
        ≠ SimState.LOCAL_SIMULATED := by
      intro hcon
      simp [h] at hcon
    have hb : sleepStep dt (some { a with velocity_sq := v })
        = some { a with velocity_sq := v } := by
      simp only [sleepStep]
      rw [if_pos hbcond]
    rw [hb]
    exact ih { a with velocity_sq := v } h

theorem c3_run (frames : List (ℚ × ℚ)) :
    ∀ a : ActorS, a.ar_sim_state = SimState.LOCAL_SIMULATED →
    a.ar_sleep_counter < 10 → (∀ p ∈ frames, 0 ≤ p.1) →
    ∃ aF, (runFrames frames ⟨[some a], -1, false⟩).m_actors = [some aF] ∧
      ((aF.ar_sim_state = SimState.LOCAL_SLEEPING ∧
        10 ≤ a.ar_sleep_counter + slowTime frames) ∨
       (aF.ar_sim_state = SimState.LOCAL_SIMULATED ∧
        a.ar_sleep_counter + slowTime frames < 10)) := by
  induction frames with
  | nil =>
    intro a hst hcnt _
    exact ⟨a, rfl, Or.inr ⟨hst, by simpa [slowTime] using hcnt⟩⟩
  | cons p rest ih =>
    intro a hst hcnt hdt
    obtain ⟨dt, v⟩ := p
    have hdtrest : ∀ q ∈ rest, (0 : ℚ) ≤ q.1 := fun q hq => hdt q (List.mem_cons_of_mem _ hq)
    have hslow0 : (0 : ℚ) ≤ slowTime rest := slowTime_nonneg rest hdtrest
    rw [runFrames_cons, setVelocity0_singleton, updateSleepingState_singleton]
    have hnotne : ¬(({ a with velocity_sq := v } : ActorS).ar_sim_state
        ≠ SimState.LOCAL_SIMULATED) := by
      intro hcon
      exact hcon hst
    by_cases hv : v ≤ 1 / 100
    · have hnotfast : ¬(({ a with velocity_sq := v } : ActorS).velocity_sq > 1 / 100) :=
        not_lt.mpr hv
      by_cases hc : a.ar_sleep_counter + dt ≥ 10
      · have hb : sleepStep dt (some { a with velocity_sq := v })
            = some { a with velocity_sq := v, ar_sleep_counter := a.ar_sleep_counter + dt,
                            ar_sim_state := SimState.LOCAL_SLEEPING } := by
          simp only [sleepStep]
          rw [if_neg hnotne, if_neg hnotfast, if_pos hc]
        rw [hb]
        obtain ⟨aF, h1, h2, -⟩ := c3_run_sleeping rest
          { a with velocity_sq := v, ar_sleep_counter := a.ar_sleep_counter + dt,
                   ar_sim_state := SimState.LOCAL_SLEEPING } rfl
        refine ⟨aF, h1, Or.inl ⟨h2, ?_⟩⟩
        simp only [slowTime, if_pos hv]
        linarith
      · have hb : sleepStep dt (some { a with velocity_sq := v })
            = some { a with velocity_sq := v,
                            ar_sleep_counter := a.ar_sleep_counter + dt } := by
          simp only [sleepStep]
          rw [if_neg hnotne, if_neg hnotfast, if_neg hc]
        rw [hb]
        obtain ⟨aF, h1, hd⟩ :=
          ih { a with velocity_sq := v, ar_sleep_counter := a.ar_sleep_counter + dt }
            hst (lt_of_not_ge hc) hdtrest
        refine ⟨aF, h1, ?_⟩
        simp only [slowTime, if_pos hv]
        simp at hd
        rcases hd with ⟨hs, hle⟩ | ⟨hs, hlt⟩
        · exact Or.inl ⟨hs, by linarith⟩
        · exact Or.inr ⟨hs, by linarith⟩
    · have hfast : ({ a with velocity_sq := v } : ActorS).velocity_sq > 1 / 100 :=
        not_le.mp hv
      have hb : sleepStep dt (some { a with velocity_sq := v })
          = some { a with velocity_sq := v } := by
        simp only [sleepStep]
        rw [if_neg hnotne, if_pos hfast]
      rw [hb]
      obtain ⟨aF, h1, hd⟩ := ih { a with velocity_sq := v } hst hcnt hdtrest
      refine ⟨aF, h1, ?_⟩
      simp only [slowTime, if_neg hv]
      simp at hd
      rcases hd with ⟨hs, hle⟩ | ⟨hs, hlt⟩
      · exact Or.inl ⟨hs, by linarith⟩
      · exact Or.inr ⟨hs, by linarith⟩

/-- C3 amended: for an isolated LOCAL_SIMULATED actor with zero sleep counter,
no player selection and the force-active override unset, iterating
UpdateSleepingState over any frame sequence puts the actor in LOCAL_SLEEPING
exactly when the accumulated simulated time spent at or below the speed
threshold (squared speed at most 0.01) reaches 10 seconds; the accumulator
pauses, but does not restart, while the speed is above the threshold, and
while the accumulated slow time is below 10 seconds (in particular one frame
before the transition) the actor is still LOCAL_SIMULATED. -/
theorem c3_sleep_accumulator (frames : List (ℚ × ℚ)) (a : ActorS)
    (hstate : a.ar_sim_state = SimState.LOCAL_SIMULATED)
    (hcnt : a.ar_sleep_counter = 0)
    (hdt : ∀ p ∈ frames, 0 ≤ p.1) :
    ∃ aF, (runFrames frames ⟨[some a], -1, false⟩).m_actors = [some aF] ∧
      (aF.ar_sim_state = SimState.LOCAL_SLEEPING ↔ 10 ≤ slowTime frames) ∧
      (aF.ar_sim_state = SimState.LOCAL_SIMULATED ↔ slowTime frames < 10) := by
  obtain ⟨aF, h1, hd⟩ := c3_run frames a hstate (by rw [hcnt]; norm_num) hdt
  rw [hcnt, zero_add] at hd
  refine ⟨aF, h1, ?_, ?_⟩
  · rcases hd with ⟨hs, hle⟩ | ⟨hs, hlt⟩
    · exact ⟨fun _ => hle, fun _ => hs⟩
    · constructor
      · intro h2
        rw [hs] at h2
        exact SimState.noConfusion h2
      · intro hge
        linarith
  · rcases hd with ⟨hs, hle⟩ | ⟨hs, hlt⟩
    · constructor
      · intro h2
        rw [hs] at h2
        exact SimState.noConfusion h2
      · intro hlt2
        linarith
    · exact ⟨fun _ => hlt, fun _ => hs⟩

/-- A trivial bounding box for concrete sleep-cluster scenarios. -/
def c3box : AABB := ⟨0, 0, 0, 0, 0, 0⟩

/-- The concrete actor for the C3 scenarios: LOCAL_SIMULATED, zero counter. -/
def c3actor : ActorS := ⟨SimState.LOCAL_SIMULATED, 0, 0, c3box, c3box, [], []⟩

/-- Witness for c3_sleep_accumulator: two stationary 5-second frames. -/
theorem c3_sleep_accumulator_witness :
    (c3actor.ar_sim_state = SimState.LOCAL_SIMULATED ∧ c3actor.ar_sleep_counter = 0 ∧
      (∀ p ∈ [((5 : ℚ), (0 : ℚ)), (5, 0)], (0 : ℚ) ≤ p.1)) ∧
    (∃ aF, (runFrames [((5 : ℚ), (0 : ℚ)), (5, 0)]
        ⟨[some c3actor], -1, false⟩).m_actors = [some aF] ∧
      (aF.ar_sim_state = SimState.LOCAL_SLEEPING
        ↔ 10 ≤ slowTime [((5 : ℚ), (0 : ℚ)), (5, 0)]) ∧
      (aF.ar_sim_state = SimState.LOCAL_SIMULATED
        ↔ slowTime [((5 : ℚ), (0 : ℚ)), (5, 0)] < 10)) :=
  ⟨⟨rfl, rfl, by norm_num⟩,
   c3_sleep_accumulator [((5 : ℚ), (0 : ℚ)), (5, 0)] c3actor rfl rfl (by norm_num)⟩

/-- C3 counterexample: the actor is stationary for 4 s at exactly the squared
speed threshold 0.01 (not strictly below it), then moves fast (squared speed
25) for 2 s without the sleep counter being reset, then is stationary for 6 s;
the linear speed never stayed strictly below the threshold continuously for 10
seconds, yet after these frames the actor is LOCAL_SLEEPING, because the
accumulator merely pauses while the actor is fast and counts speeds at the
threshold. -/
theorem c3_noncontinuous_sleep :
    (1 / 100 : ℚ) < 25 ∧ ¬((1 / 100 : ℚ) < 1 / 100) ∧ (6 : ℚ) < 10 ∧
    Option.map ActorS.ar_sim_state
      ((runFrames [((4 : ℚ), (1 / 100 : ℚ)), (2, 25), (6, 0)]
        ⟨[some ⟨SimState.LOCAL_SIMULATED, 0, 0, c3box, c3box, [], []⟩], -1,
          false⟩).m_actors.getD 0 none)
      = some SimState.LOCAL_SLEEPING := by
  refine ⟨by norm_num, by norm_num, by norm_num, ?_⟩
  rw [runFrames_cons, setVelocity0_singleton, updateSleepingState_singleton]
  have hb1 : sleepStep 4 (some { (⟨SimState.LOCAL_SIMULATED, 0, 0, c3box, c3box, [], []⟩ :
      ActorS) with velocity_sq := (1 / 100 : ℚ) })
      = some ⟨SimState.LOCAL_SIMULATED, 4, 1 / 100, c3box, c3box, [], []⟩ := by
    norm_num [sleepStep]
  rw [hb1]
  rw [runFrames_cons, setVelocity0_singleton, updateSleepingState_singleton]
  have hb2 : sleepStep 2 (some { (⟨SimState.LOCAL_SIMULATED, 4, 1 / 100, c3box, c3box, [], []⟩ :
      ActorS) with velocity_sq := (25 : ℚ) })
      = some ⟨SimState.LOCAL_SIMULATED, 4, 25, c3box, c3box, [], []⟩ := by
    norm_num [sleepStep]
  rw [hb2]
  rw [runFrames_cons, setVelocity0_singleton, updateSleepingState_singleton]
  have hb3 : sleepStep 6 (some { (⟨SimState.LOCAL_SIMULATED, 4, 25, c3box, c3box, [], []⟩ :
      ActorS) with velocity_sq := (0 : ℚ) })
      = some ⟨SimState.LOCAL_SLEEPING, 10, 0, c3box, c3box, [], []⟩ := by
    norm_num [sleepStep]
  rw [hb3]
  rfl

/-! ## Invariants of the reachability pass -/

theorem getD_set_general {α : Type} :
    ∀ (l : List α) (j i : ℕ) (v d : α),
      (l.set j v).getD i d = if i = j ∧ j < l.length then v else l.getD i d := by
  intro l
  induction l with
  | nil => intro j i v d; simp [List.set]
  | cons x xs ih =>
    intro j i v d
    cases j with
    | zero =>
      cases i with
      | zero => simp
      | succ m => simp
    | succ n =>
      cases i with
      | zero => simp
      | succ m =>
        simp only [List.set, List.getD_cons_succ, List.length_cons]
        rw [ih n m v d]
        by_cases h : m = n ∧ n < xs.length
        · rw [if_pos h, if_pos (by omega)]
        · rw [if_neg h, if_neg (by omega)]

theorem getD_some_lt {α : Type} (l : List (Option α)) (t : ℕ) (a : α)
    (h : l.getD t none = some a) : t < l.length := by
  by_contra hge
  rw [List.getD_eq_default _ _ (by omega)] at h
  cases h

/-- The per-slot effect of one reachability pass: an actor is unchanged, has
its sleep counter reset, or is woken from LOCAL_SLEEPING to LOCAL_SIMULATED
with its counter reset. -/
def actorEvolve (x y : Option ActorS) : Prop :=
  y = x ∨ ∃ a, x = some a ∧
    (y = some { a with ar_sleep_counter := 0 } ∨
     (a.ar_sim_state = SimState.LOCAL_SLEEPING ∧
      y = some { a with ar_sleep_counter := 0, ar_sim_state := SimState.LOCAL_SIMULATED }))

theorem actorEvolve_refl (x : Option ActorS) : actorEvolve x x := Or.inl rfl

theorem actorEvolve_some (x y : Option ActorS) (a : ActorS)
    (h : actorEvolve x y) (hx : x = some a) :
    y = some a ∨ y = some { a with ar_sleep_counter := 0 } ∨
    (a.ar_sim_state = SimState.LOCAL_SLEEPING ∧
     y = some { a with ar_sleep_counter := 0, ar_sim_state := SimState.LOCAL_SIMULATED }) := by
  rcases h with rfl | ⟨b, hb, hopt⟩
  · exact Or.inl hx
  · rw [hx] at hb
    injection hb with hab
    subst hab
    rcases hopt with h1 | ⟨h2, h3⟩
    · exact Or.inr (Or.inl h1)
    · exact Or.inr (Or.inr ⟨h2, h3⟩)

theorem actorEvolve_trans (x y z : Option ActorS)
    (h1 : actorEvolve x y) (h2 : actorEvolve y z) : actorEvolve x z := by
  rcases h1 with rfl | ⟨a, hxa, hopt1⟩
  · exact h2
  · rcases hopt1 with h1z | ⟨hsleep, h1w⟩
    · rcases actorEvolve_some _ _ _ h2 h1z with h2a | h2b | ⟨hs2, h2c⟩
      · exact Or.inr ⟨a, hxa, Or.inl h2a⟩
      · exact Or.inr ⟨a, hxa, Or.inl (by rw [h2b])⟩
      · exact Or.inr ⟨a, hxa, Or.inr ⟨hs2, by rw [h2c]⟩⟩
    · rcases actorEvolve_some _ _ _ h2 h1w with h2a | h2b | ⟨hs2, h2c⟩
      · exact Or.inr ⟨a, hxa, Or.inr ⟨hsleep, h2a⟩⟩
      · exact Or.inr ⟨a, hxa, Or.inr ⟨hsleep, by rw [h2b]⟩⟩
      · simp at hs2

theorem actorEvolve_none (y : Option ActorS) (h : actorEvolve none y) : y = none := by
  rcases h with rfl | ⟨a, ha, -⟩
  · rfl
  · cases ha

theorem actorEvolve_state_preserved (x y : Option ActorS) (a : ActorS)
    (h : actorEvolve x y) (hx : x = some a)
    (hns : a.ar_sim_state ≠ SimState.LOCAL_SLEEPING) :
    ∃ b, y = some b ∧ b.ar_sim_state = a.ar_sim_state := by
  rcases actorEvolve_some _ _ _ h hx with h1 | h2 | ⟨h3, -⟩
  · exact ⟨a, h1, rfl⟩
  · exact ⟨{ a with ar_sleep_counter := 0 }, h2, rfl⟩
  · exact absurd h3 hns

theorem actorEvolve_geom (x y : Option ActorS) (a : ActorS)
    (h : actorEvolve x y) (hx : x = some a) :
    ∃ b, y = some b ∧ b.ar_bounding_box = a.ar_bounding_box ∧
      b.ar_predicted_bounding_box = a.ar_predicted_bounding_box ∧
      b.ar_collision_bounding_boxes = a.ar_collision_bounding_boxes ∧
      b.ar_predicted_coll_bounding_boxes = a.ar_predicted_coll_bounding_boxes := by
  rcases actorEvolve_some _ _ _ h hx with h1 | h2 | ⟨-, h3⟩
  · exact ⟨a, h1, rfl, rfl, rfl, rfl⟩
  · exact ⟨_, h2, rfl, rfl, rfl, rfl⟩
  · exact ⟨_, h3, rfl, rfl, rfl, rfl⟩

theorem predictOverlap_of_evolve (A B : List (Option ActorS))
    (hev : ∀ i, actorEvolve (A.getD i none) (B.getD i none)) (t j : ℕ) :
    predictTruckIntersectionCollAABB B t j 1 = predictTruckIntersectionCollAABB A t j 1 := by
  cases hA : A.getD t none with
  | none =>
    have hB : B.getD t none = none := by
      have h0 := hev t
      rw [hA] at h0
      exact actorEvolve_none _ h0
    simp only [predictTruckIntersectionCollAABB, hA, hB]
  | some x =>
    obtain ⟨x2, hB, hx1, hx2, hx3, hx4⟩ := actorEvolve_geom _ _ _ (hev t) hA
    cases hAj : A.getD j none with
    | none =>
      have hBj : B.getD j none = none := by
        have h0 := hev j
        rw [hAj] at h0
        exact actorEvolve_none _ h0
      simp only [predictTruckIntersectionCollAABB, hA, hB, hAj, hBj]
    | some y =>
      obtain ⟨y2, hBj, hy1, hy2, hy3, hy4⟩ := actorEvolve_geom _ _ _ (hev j) hAj
      simp only [predictTruckIntersectionCollAABB, predictTruckIntersectionAABB,
        hA, hB, hAj, hBj, hx2, hx4, hy2, hy4]

/-- An actor that is LOCAL_SIMULATED with a zero sleep counter (the state a
woken actor is left in). -/
def Qt (t : ℕ) (s : List Bool × List (Option ActorS)) : Prop :=
  ∃ a, s.2.getD t none = some a ∧ a.ar_sim_state = SimState.LOCAL_SIMULATED ∧
    a.ar_sleep_counter = 0

/-- Invariant at slot t through a reachability pass: the actor is either
already woken (LOCAL_SIMULATED with zero counter) or still asleep and not yet
visited. -/
def Rstate (t : ℕ) (s : List Bool × List (Option ActorS)) : Prop :=
  Qt t s ∨
  ∃ a, s.2.getD t none = some a ∧ a.ar_sim_state = SimState.LOCAL_SLEEPING ∧
    s.1.getD t false = false

/-- What a single (possibly recursive) activation step may do to the state:
lengths preserved, every slot evolves by actorEvolve, the visited set grows,
a newly visited slot holds a LOCAL_SIMULATED actor, and the per-slot
invariant Rstate is preserved. -/
def StepOK (s s' : List Bool × List (Option ActorS)) : Prop :=
  s'.2.length = s.2.length ∧
  (∀ t, actorEvolve (s.2.getD t none) (s'.2.getD t none)) ∧
  (∀ t, s.1.getD t false = true → s'.1.getD t false = true) ∧
  (∀ t, s'.1.getD t false = true → s.1.getD t false = true ∨
    ∃ a, s'.2.getD t none = some a ∧ a.ar_sim_state = SimState.LOCAL_SIMULATED) ∧
  (∀ t, Rstate t s → Rstate t s')

theorem StepOK_refl (s : List Bool × List (Option ActorS)) : StepOK s s :=
  ⟨rfl, fun _ => actorEvolve_refl _, fun _ h => h, fun _ h => Or.inl h, fun _ h => h⟩

theorem StepOK_trans {s1 s2 s3 : List Bool × List (Option ActorS)}
    (h12 : StepOK s1 s2) (h23 : StepOK s2 s3) : StepOK s1 s3 := by
  obtain ⟨hl12, he12, hv12, hw12, hr12⟩ := h12
  obtain ⟨hl23, he23, hv23, hw23, hr23⟩ := h23
  refine ⟨hl23.trans hl12, fun t => actorEvolve_trans _ _ _ (he12 t) (he23 t),
    fun t ht => hv23 t (hv12 t ht), ?_, fun t ht => hr23 t (hr12 t ht)⟩
  intro t ht
  rcases hw23 t ht with h2 | ⟨b, hb, hbs⟩
  · rcases hw12 t h2 with h1 | ⟨a, ha, has⟩
    · exact Or.inl h1
    · obtain ⟨c, hc, hcs⟩ := actorEvolve_state_preserved _ _ a (he23 t) ha
        (by rw [has]; intro hcon; exact SimState.noConfusion hcon)
      exact Or.inr ⟨c, hc, by rw [hcs, has]⟩
  · exact Or.inr ⟨b, hb, hbs⟩

theorem foldl_inv {α β : Type _} (P : β → Prop) (f : β → α → β)
    (hstep : ∀ s a, P s → P (f s a)) :
    ∀ (l : List α) (s : β), P s → P (l.foldl f s) := by
  intro l
  induction l with
  | nil => intro s h; exact h
  | cons x xs ih => intro s h; exact ih (f s x) (hstep s x h)

theorem Qt_preserved (t : ℕ) (s s' : List Bool × List (Option ActorS))
    (h : StepOK s s') (hq : Qt t s) : Qt t s' := by
  obtain ⟨-, hev, -, -, hr⟩ := h
  obtain ⟨a, ha, has, hac⟩ := hq
  obtain ⟨b, hb, hbs⟩ := actorEvolve_state_preserved _ _ a (hev t) ha
    (by rw [has]; intro hcon; exact SimState.noConfusion hcon)
  rcases hr t (Or.inl ⟨a, ha, has, hac⟩) with hQ | ⟨c, hc, hcs, -⟩
  · exact hQ
  · rw [hb] at hc
    injection hc with hbc
    rw [← hbc] at hcs
    rw [hbs, has] at hcs
    exact SimState.noConfusion hcs

theorem StepOK_set_zero (acc : List Bool × List (Option ActorS)) (t : ℕ) (a1 : ActorS)
    (hget : acc.2.getD t none = some a1)
    (hsim : a1.ar_sim_state = SimState.LOCAL_SIMULATED) :
    StepOK acc (acc.1, acc.2.set t (some { a1 with ar_sleep_counter := 0 })) := by
  have htlt : t < acc.2.length := getD_some_lt _ _ _ hget
  refine ⟨by simp, ?_, fun u hu => hu, fun u hu => Or.inl hu, ?_⟩
  · intro u
    show actorEvolve (acc.2.getD u none) ((acc.2.set t (some { a1 with ar_sleep_counter := 0 })).getD u none)
    rw [getD_set_general]
    by_cases hu : u = t ∧ t < acc.2.length
    · rw [if_pos hu]
      obtain ⟨rfl, -⟩ := hu
      rw [hget]
      exact Or.inr ⟨a1, rfl, Or.inl rfl⟩
    · rw [if_neg hu]; exact actorEvolve_refl _
  · intro u hu
    rcases hu with ⟨a, ha, has, hac⟩ | ⟨a, ha, has, hav⟩
    · left
      by_cases hut : u = t
      · subst hut
        rw [ha] at hget
        injection hget with haa
        refine ⟨{ a1 with ar_sleep_counter := 0 }, ?_, hsim, rfl⟩
        show (acc.2.set u (some { a1 with ar_sleep_counter := 0 })).getD u none = _
        rw [getD_set_general, if_pos ⟨rfl, htlt⟩]
      · refine ⟨a, ?_, has, hac⟩
        show (acc.2.set t (some { a1 with ar_sleep_counter := 0 })).getD u none = some a
        rw [getD_set_general, if_neg (fun hcc => hut hcc.1)]
        exact ha
    · by_cases hut : u = t
      · subst hut
        rw [ha] at hget
        injection hget with haa
        rw [haa] at has
        rw [hsim] at has
        exact absurd has (fun hcon => SimState.noConfusion hcon)
      · right
        refine ⟨a, ?_, has, hav⟩
        show (acc.2.set t (some { a1 with ar_sleep_counter := 0 })).getD u none = some a
        rw [getD_set_general, if_neg (fun hcc => hut hcc.1)]
        exact ha

theorem StepOK_set_wake (acc : List Bool × List (Option ActorS)) (t : ℕ) (a2 : ActorS)
    (hget : acc.2.getD t none = some a2)
    (hsleep : a2.ar_sim_state = SimState.LOCAL_SLEEPING) :
    StepOK acc (acc.1, acc.2.set t
      (some { a2 with ar_sleep_counter := 0, ar_sim_state := SimState.LOCAL_SIMULATED })) := by
  have htlt : t < acc.2.length := getD_some_lt _ _ _ hget
  refine ⟨by simp, ?_, fun u hu => hu, fun u hu => Or.inl hu, ?_⟩
  · intro u
    show actorEvolve (acc.2.getD u none) ((acc.2.set t
      (some { a2 with ar_sleep_counter := 0,
                      ar_sim_state := SimState.LOCAL_SIMULATED })).getD u none)
    rw [getD_set_general]
    by_cases hu : u = t ∧ t < acc.2.length
    · rw [if_pos hu]
      obtain ⟨rfl, -⟩ := hu
      rw [hget]
      exact Or.inr ⟨a2, rfl, Or.inr ⟨hsleep, rfl⟩⟩
    · rw [if_neg hu]; exact actorEvolve_refl _
  · intro u hu
    rcases hu with ⟨a, ha, has, hac⟩ | ⟨a, ha, has, hav⟩
    · by_cases hut : u = t
      · subst hut
        rw [ha] at hget
        injection hget with haa
        rw [haa] at has
        rw [hsleep] at has
        exact absurd has (fun hcon => SimState.noConfusion hcon)
      · left
        refine ⟨a, ?_, has, hac⟩
        show (acc.2.set t _).getD u none = some a
        rw [getD_set_general, if_neg (fun hcc => hut hcc.1)]
        exact ha
    · by_cases hut : u = t
      · subst hut
        left
        refine ⟨{ a2 with ar_sleep_counter := 0, ar_sim_state := SimState.LOCAL_SIMULATED },
          ?_, rfl, rfl⟩
        show (acc.2.set u _).getD u none = _
        rw [getD_set_general, if_pos ⟨rfl, htlt⟩]
      · right
        refine ⟨a, ?_, has, hav⟩
        show (acc.2.set t _).getD u none = some a
        rw [getD_set_general, if_neg (fun hcc => hut hcc.1)]
        exact ha

theorem StepOK_mark (s : List Bool × List (Option ActorS)) (j : ℕ) (aj : ActorS)
    (hj : s.2.getD j none = some aj)
    (hsim : aj.ar_sim_state = SimState.LOCAL_SIMULATED) :
    StepOK s (s.1.set j true, s.2) := by
  refine ⟨rfl, fun t => actorEvolve_refl _, ?_, ?_, ?_⟩
  · intro u hu
    show (s.1.set j true).getD u false = true
    rw [getD_set_general]
    by_cases hc : u = j ∧ j < s.1.length
    · rw [if_pos hc]
    · rw [if_neg hc]; exact hu
  · intro u hu
    rw [show ((s.1.set j true, s.2) : List Bool × List (Option ActorS)).1
      = s.1.set j true from rfl] at hu
    rw [getD_set_general] at hu
    by_cases hc : u = j ∧ j < s.1.length
    · obtain ⟨rfl, -⟩ := hc
      exact Or.inr ⟨aj, hj, hsim⟩
    · rw [if_neg hc] at hu
      exact Or.inl hu
  · intro u hu
    rcases hu with hQ | ⟨a, ha, has, hav⟩
    · exact Or.inl hQ
    · by_cases huj : u = j
      · subst huj
        rw [ha] at hj
        injection hj with haa
        rw [← haa] at hsim
        rw [hsim] at has
        exact absurd has (fun hcon => SimState.noConfusion hcon)
      · right
        refine ⟨a, ha, has, ?_⟩
        show (s.1.set j true).getD u false = false
        rw [getD_set_general, if_neg (fun hcc => huj hcc.1)]
        exact hav

theorem stepOK_first (acc : List Bool × List (Option ActorS))
    (recur : ℕ → List Bool × List (Option ActorS) → List Bool × List (Option ActorS))
    (j t : ℕ) (hrec : ∀ u s, StepOK s (recur u s)) :
    StepOK acc (match acc.2.getD t none with
      | some a1 =>
        if a1.ar_sim_state = SimState.LOCAL_SIMULATED ∧
           truckIntersectionCollAABB acc.2 t j (6 / 5) = true then
          recur t (acc.1, acc.2.set t (some { a1 with ar_sleep_counter := 0 }))
        else acc
      | none => acc) := by
  cases hg : acc.2.getD t none with
  | none => exact StepOK_refl acc
  | some a1 =>
    dsimp only
    by_cases hcond : a1.ar_sim_state = SimState.LOCAL_SIMULATED ∧
        truckIntersectionCollAABB acc.2 t j (6 / 5) = true
    · rw [if_pos hcond]
      exact StepOK_trans (StepOK_set_zero acc t a1 hg hcond.1) (hrec t _)
    · rw [if_neg hcond]; exact StepOK_refl acc

theorem stepOK_after (acc s1 : List Bool × List (Option ActorS))
    (recur : ℕ → List Bool × List (Option ActorS) → List Bool × List (Option ActorS))
    (j t : ℕ) (hrec : ∀ u s, StepOK s (recur u s)) (h1 : StepOK acc s1) :
    StepOK acc (match s1.2.getD t none with
      | some a2 =>
        if a2.ar_sim_state = SimState.LOCAL_SLEEPING ∧
           predictTruckIntersectionCollAABB s1.2 t j 1 = true then
          recur t (s1.1, s1.2.set t
            (some { a2 with ar_sleep_counter := 0
                            ar_sim_state := SimState.LOCAL_SIMULATED }))
        else s1
      | none => s1) := by
  cases hg : s1.2.getD t none with
  | none => exact h1
  | some a2 =>
    dsimp only
    by_cases hcond : a2.ar_sim_state = SimState.LOCAL_SLEEPING ∧
        predictTruckIntersectionCollAABB s1.2 t j 1 = true
    · rw [if_pos hcond]
      exact StepOK_trans h1 (StepOK_trans (StepOK_set_wake s1 t a2 hg hcond.1) (hrec t _))
    · rw [if_neg hcond]; exact h1

theorem recActBody_stepOK
    (recur : ℕ → List Bool × List (Option ActorS) → List Bool × List (Option ActorS))
    (j : ℕ) (hrec : ∀ u s, StepOK s (recur u s))
    (acc : List Bool × List (Option ActorS)) (t : ℕ) :
    StepOK acc (recActBody recur j acc t) := by
  unfold recActBody
  by_cases hguard : t = j ∨ (acc.2.getD t none).isNone = true ∨ acc.1.getD t false = true
  · rw [if_pos hguard]; exact StepOK_refl acc
  · rw [if_neg hguard]
    exact stepOK_after acc _ recur j t hrec (stepOK_first acc recur j t hrec)

theorem recursiveActivation_stepOK :
    ∀ (fuel j : ℕ) (s : List Bool × List (Option ActorS)),
      StepOK s (recursiveActivation fuel j s) := by
  intro fuel
  induction fuel with
  | zero => intro j s; exact StepOK_refl s
  | succ n ih =>
    intro j s
    show StepOK s (recursiveActivation (n + 1) j s)
    rw [recursiveActivation]
    cases hj : s.2.getD j none with
    | none => exact StepOK_refl s
    | some aj =>
      dsimp only
      by_cases hcond : s.1.getD j false = true ∨ aj.ar_sim_state ≠ SimState.LOCAL_SIMULATED
      · rw [if_pos hcond]; exact StepOK_refl s
      · rw [if_neg hcond]
        push_neg at hcond
        obtain ⟨-, hsim⟩ := hcond
        exact foldl_inv (StepOK s) _
          (fun s' u h => StepOK_trans h (recActBody_stepOK (recursiveActivation n) j ih s' u))
          _ _ (StepOK_mark s j aj hj hsim)

theorem recActBody_wakes
    (recur : ℕ → List Bool × List (Option ActorS) → List Bool × List (Option ActorS))
    (j t : ℕ) (s1 : List Bool × List (Option ActorS)) (a2 : ActorS)
    (htj : t ≠ j)
    (hget : s1.2.getD t none = some a2)
    (hsleep : a2.ar_sim_state = SimState.LOCAL_SLEEPING)
    (hvis : s1.1.getD t false = false)
    (hov : predictTruckIntersectionCollAABB s1.2 t j 1 = true) :
    recActBody recur j s1 t
      = recur t (s1.1, s1.2.set t
          (some { a2 with ar_sleep_counter := 0
                          ar_sim_state := SimState.LOCAL_SIMULATED })) := by
  unfold recActBody
  have hguard : ¬(t = j ∨ (s1.2.getD t none).isNone = true ∨ s1.1.getD t false = true) := by
    rintro (h | h | h)
    · exact htj h
    · rw [hget] at h; simp at h
    · rw [hvis] at h; exact Bool.noConfusion h
  rw [if_neg hguard, hget]
  dsimp only
  have hc1 : ¬(a2.ar_sim_state = SimState.LOCAL_SIMULATED ∧
      truckIntersectionCollAABB s1.2 t j (6 / 5) = true) := by
    rintro ⟨h, -⟩
    rw [hsleep] at h
    exact SimState.noConfusion h
  rw [if_neg hc1, hget]
  dsimp only
  rw [if_pos ⟨hsleep, hov⟩]

theorem recursiveActivation_wakes (fuel j t : ℕ) (s : List Bool × List (Option ActorS))
    (aj a : ActorS) (hfuel : 1 ≤ fuel)
    (hj : s.2.getD j none = some aj) (hjsim : aj.ar_sim_state = SimState.LOCAL_SIMULATED)
    (hjv : s.1.getD j false = false)
    (ht : s.2.getD t none = some a) (hts : a.ar_sim_state = SimState.LOCAL_SLEEPING)
    (htv : s.1.getD t false = false)
    (hov : predictTruckIntersectionCollAABB s.2 t j 1 = true) :
    Qt t (recursiveActivation fuel j s) := by
  have htj : t ≠ j := by
    intro he
    subst he
    rw [ht] at hj
    injection hj with he2
    rw [← he2] at hjsim
    rw [hjsim] at hts
    exact SimState.noConfusion hts
  obtain ⟨n, rfl⟩ : ∃ n, fuel = n + 1 := ⟨fuel - 1, by omega⟩
  rw [recursiveActivation, hj]
  dsimp only
  have hcnd : ¬(s.1.getD j false = true ∨ aj.ar_sim_state ≠ SimState.LOCAL_SIMULATED) := by
    rintro (h | h)
    · rw [hjv] at h; exact Bool.noConfusion h
    · exact h hjsim
  rw [if_neg hcnd]
  have htlt : t < s.2.length := getD_some_lt _ _ _ ht
  rw [show s.2.length = t + 1 + (s.2.length - (t + 1)) from by omega, List.range_add,
    List.range_succ, List.foldl_append, List.foldl_append]
  simp only [List.foldl_cons, List.foldl_nil]
  have hrec : ∀ (u : ℕ) (s' : List Bool × List (Option ActorS)),
      StepOK s' (recursiveActivation n u s') := recursiveActivation_stepOK n
  have hA : StepOK (s.1.set j true, s.2)
      (List.foldl (recActBody (recursiveActivation n) j) (s.1.set j true, s.2)
        (List.range t)) :=
    foldl_inv (StepOK (s.1.set j true, s.2)) _
      (fun s' u h => StepOK_trans h (recActBody_stepOK _ j hrec s' u))
      (List.range t) _ (StepOK_refl _)
  have hR0 : Rstate t (s.1.set j true, s.2) := by
    right
    refine ⟨a, ht, hts, ?_⟩
    show (s.1.set j true).getD t false = false
    rw [getD_set_general, if_neg (fun hcc => htj hcc.1)]
    exact htv
  have hR1 : Rstate t (List.foldl (recActBody (recursiveActivation n) j)
      (s.1.set j true, s.2) (List.range t)) := hA.2.2.2.2 t hR0
  have hov1 : predictTruckIntersectionCollAABB
      (List.foldl (recActBody (recursiveActivation n) j) (s.1.set j true, s.2)
        (List.range t)).2 t j 1 = true := by
    rw [predictOverlap_of_evolve ((s.1.set j true, s.2) :
      List Bool × List (Option ActorS)).2 _ hA.2.1 t j]
    exact hov
  have hQ2 : Qt t (recActBody (recursiveActivation n) j
      (List.foldl (recActBody (recursiveActivation n) j) (s.1.set j true, s.2)
        (List.range t)) t) := by
    rcases hR1 with hQ | ⟨a2, hget2, hsleep2, hvis2⟩
    · exact Qt_preserved t _ _ (recActBody_stepOK _ j hrec _ t) hQ
    · rw [recActBody_wakes (recursiveActivation n) j t _ a2 htj hget2 hsleep2 hvis2 hov1]
      apply Qt_preserved t _ _ (hrec t _)
      refine ⟨{ a2 with ar_sleep_counter := 0, ar_sim_state := SimState.LOCAL_SIMULATED },
        ?_, rfl, rfl⟩
      show ((List.foldl (recActBody (recursiveActivation n) j) (s.1.set j true, s.2)
        (List.range t)).2.set t _).getD t none = _
      rw [getD_set_general, if_pos ⟨rfl, getD_some_lt _ _ _ hget2⟩]
  exact foldl_inv (Qt t) _
    (fun s' u h => Qt_preserved t s' _ (recActBody_stepOK _ j hrec s' u) h)
    _ _ hQ2

theorem recursiveActivation_networked_id (fuel j : ℕ)
    (s : List Bool × List (Option ActorS)) (aj : ActorS)
    (hj : s.2.getD j none = some aj)
    (hnet : aj.ar_sim_state = SimState.NETWORKED_OK) :
    recursiveActivation fuel j s = s := by
  cases fuel with
  | zero => rfl
  | succ n =>
    rw [recursiveActivation, hj]
    dsimp only
    rw [if_pos]
    right
    rw [hnet]
    intro hcon
    exact SimState.noConfusion hcon

theorem recursiveActivation_networked_unmarked (fuel j t : ℕ)
    (s : List Bool × List (Option ActorS)) (a : ActorS)
    (ht : s.2.getD t none = some a) (hnet : a.ar_sim_state = SimState.NETWORKED_OK)
    (htv : s.1.getD t false = false) :
    (recursiveActivation fuel j s).1.getD t false = false := by
  obtain ⟨-, hev, -, hw, -⟩ := recursiveActivation_stepOK fuel j s
  cases hb : (recursiveActivation fuel j s).1.getD t false with
  | false => rfl
  | true =>
    rcases hw t hb with h1 | ⟨b, hb2, hbs⟩
    · rw [htv] at h1; exact Bool.noConfusion h1
    · obtain ⟨c, hc, hcs⟩ := actorEvolve_state_preserved _ _ a (hev t) ht
        (by rw [hnet]; intro hcon; exact SimState.noConfusion hcon)
      rw [hc] at hb2
      injection hb2 with hcb
      rw [← hcb] at hbs
      rw [hcs] at hbs
      rw [hnet] at hbs
      exact SimState.noConfusion hbs

/-- Predicted bounding boxes for the concrete reachability scenario: B
overlaps A, C overlaps B but not A. -/
def predBoxA : AABB := ⟨0, 0, 0, 2, 2, 2⟩

def predBoxB : AABB := ⟨1, 1, 1, 3, 3, 3⟩

def predBoxC : AABB := ⟨5 / 2, 5 / 2, 5 / 2, 4, 4, 4⟩

/-- Actual bounding boxes, pairwise disjoint. -/
def actBoxA : AABB := ⟨0, 0, 0, 1, 1, 1⟩

def actBoxB : AABB := ⟨10, 10, 10, 11, 11, 11⟩

def actBoxC : AABB := ⟨20, 20, 20, 21, 21, 21⟩

/-- The moving player-controlled actor A. -/
def c4A : ActorS := ⟨SimState.LOCAL_SIMULATED, 5, 1, actBoxA, predBoxA, [], []⟩

/-- Sleeping actor B, predicted-overlapping A. -/
def c4B : ActorS := ⟨SimState.LOCAL_SLEEPING, 7, 0, actBoxB, predBoxB, [], []⟩

/-- Sleeping actor C, predicted-overlapping B but not A. -/
def c4C : ActorS := ⟨SimState.LOCAL_SLEEPING, 3, 0, actBoxC, predBoxC, [], []⟩

theorem recursiveActivation_visited (fuel j : ℕ) (s : List Bool × List (Option ActorS))
    (h : s.1.getD j false = true) : recursiveActivation fuel j s = s := by
  cases fuel with
  | zero => rfl
  | succ n =>
    rw [recursiveActivation]
    cases hj : s.2.getD j none with
    | none => rfl
    | some aj =>
      dsimp only
      rw [if_pos (Or.inl h)]

theorem c4_concrete_run :
    updateSleepingState (1 / 10) ⟨[some c4A, some c4B, some c4C], 0, false⟩
      = ⟨[some ⟨SimState.LOCAL_SIMULATED, 0, 1, actBoxA, predBoxA, [], []⟩,
          some ⟨SimState.LOCAL_SIMULATED, 0, 0, actBoxB, predBoxB, [], []⟩,
          some ⟨SimState.LOCAL_SIMULATED, 0, 0, actBoxC, predBoxC, [], []⟩], 0, false⟩ := by
  have hA : sleepStep (10 : ℚ)⁻¹
      (some ⟨SimState.LOCAL_SIMULATED, 5, 1, actBoxA, predBoxA, [], []⟩)
      = some ⟨SimState.LOCAL_SIMULATED, 5, 1, actBoxA, predBoxA, [], []⟩ := by
    norm_num [sleepStep]
  have hB : sleepStep (10 : ℚ)⁻¹
      (some ⟨SimState.LOCAL_SLEEPING, 7, 0, actBoxB, predBoxB, [], []⟩)
      = some ⟨SimState.LOCAL_SLEEPING, 7, 0, actBoxB, predBoxB, [], []⟩ := by
    simp [sleepStep]
  have hC : sleepStep (10 : ℚ)⁻¹
      (some ⟨SimState.LOCAL_SLEEPING, 3, 0, actBoxC, predBoxC, [], []⟩)
      = some ⟨SimState.LOCAL_SLEEPING, 3, 0, actBoxC, predBoxC, [], []⟩ := by
    simp [sleepStep]
  have hOvBA : predictTruckIntersectionCollAABB
      [some ⟨SimState.LOCAL_SIMULATED, 0, 1, actBoxA, predBoxA, [], []⟩,
       some ⟨SimState.LOCAL_SLEEPING, 7, 0, actBoxB, predBoxB, [], []⟩,
       some ⟨SimState.LOCAL_SLEEPING, 3, 0, actBoxC, predBoxC, [], []⟩] 1 0 1 = true := by
    norm_num [predictTruckIntersectionCollAABB, predictTruckIntersectionAABB, intersectionAABB,
      aabbOverlap, predBoxA, predBoxB, List.getD_cons_zero, List.getD_cons_succ]
  have hOvCB : predictTruckIntersectionCollAABB
      [some ⟨SimState.LOCAL_SIMULATED, 0, 1, actBoxA, predBoxA, [], []⟩,
       some ⟨SimState.LOCAL_SIMULATED, 0, 0, actBoxB, predBoxB, [], []⟩,
       some ⟨SimState.LOCAL_SLEEPING, 3, 0, actBoxC, predBoxC, [], []⟩] 2 1 1 = true := by
    norm_num [predictTruckIntersectionCollAABB, predictTruckIntersectionAABB, intersectionAABB,
      aabbOverlap, predBoxB, predBoxC, List.getD_cons_zero, List.getD_cons_succ]
  have hFA : recursiveActivation 4 0 ([false, false, false],
      [some ⟨SimState.LOCAL_SIMULATED, 0, 1, actBoxA, predBoxA, [], []⟩,
       some ⟨SimState.LOCAL_SLEEPING, 7, 0, actBoxB, predBoxB, [], []⟩,
       some ⟨SimState.LOCAL_SLEEPING, 3, 0, actBoxC, predBoxC, [], []⟩])
      = ([true, true, true],
      [some ⟨SimState.LOCAL_SIMULATED, 0, 1, actBoxA, predBoxA, [], []⟩,
       some ⟨SimState.LOCAL_SIMULATED, 0, 0, actBoxB, predBoxB, [], []⟩,
       some ⟨SimState.LOCAL_SIMULATED, 0, 0, actBoxC, predBoxC, [], []⟩]) := by
    simp [recursiveActivation, recActBody, hOvBA, hOvCB,
      List.getD_cons_zero, List.getD_cons_succ, List.set, List.range_succ, List.range_zero,
      List.foldl_append, List.foldl_cons, List.foldl_nil]
  simp [updateSleepingState, sleepCountLoop, getTruckS, c4A, c4B, c4C, hA, hB, hC, hFA,
    recursiveActivation_visited,
    List.getD_cons_zero, List.getD_cons_succ, List.set, List.replicate,
    List.range_succ, List.range_zero, List.foldl_append, List.foldl_cons, List.foldl_nil]
/-- C4: in one reachability pass (RecursiveActivation as called from
UpdateSleepingState), every unvisited LOCAL_SLEEPING actor t whose predicted
collision geometry overlaps (at dilation 1.0) that of the unvisited
LOCAL_SIMULATED wake source j is left LOCAL_SIMULATED with its sleep counter
reset to zero; and in the concrete three-actor scenario with player actor A,
sleeping B whose predicted geometry overlaps A's, and sleeping C whose
predicted geometry overlaps B's but not A's, one UpdateSleepingState pass
wakes both B and C. -/
theorem c4_reachability_wake :
    (∀ (fuel j t : ℕ) (s : List Bool × List (Option ActorS)) (aj a : ActorS),
        1 ≤ fuel →
        s.2.getD j none = some aj → aj.ar_sim_state = SimState.LOCAL_SIMULATED →
        s.1.getD j false = false →
        s.2.getD t none = some a → a.ar_sim_state = SimState.LOCAL_SLEEPING →
        s.1.getD t false = false →
        predictTruckIntersectionCollAABB s.2 t j 1 = true →
        ∃ b, (recursiveActivation fuel j s).2.getD t none = some b ∧
          b.ar_sim_state = SimState.LOCAL_SIMULATED ∧ b.ar_sleep_counter = 0)
    ∧ predictTruckIntersectionCollAABB [some c4A, some c4B, some c4C] 1 0 1 = true
    ∧ predictTruckIntersectionCollAABB [some c4A, some c4B, some c4C] 2 1 1 = true
    ∧ predictTruckIntersectionCollAABB [some c4A, some c4B, some c4C] 2 0 1 = false
    ∧ updateSleepingState (1 / 10) ⟨[some c4A, some c4B, some c4C], 0, false⟩
        = ⟨[some ⟨SimState.LOCAL_SIMULATED, 0, 1, actBoxA, predBoxA, [], []⟩,
            some ⟨SimState.LOCAL_SIMULATED, 0, 0, actBoxB, predBoxB, [], []⟩,
            some ⟨SimState.LOCAL_SIMULATED, 0, 0, actBoxC, predBoxC, [], []⟩], 0, false⟩ := by
  refine ⟨?_, ?_, ?_, ?_, c4_concrete_run⟩
  · intro fuel j t s aj a hf hj hjs hjv ht hts htv hov
    exact recursiveActivation_wakes fuel j t s aj a hf hj hjs hjv ht hts htv hov
  · norm_num [predictTruckIntersectionCollAABB, predictTruckIntersectionAABB, intersectionAABB,
      aabbOverlap, c4A, c4B, c4C, predBoxA, predBoxB, predBoxC,
      List.getD_cons_zero, List.getD_cons_succ]
  · norm_num [predictTruckIntersectionCollAABB, predictTruckIntersectionAABB, intersectionAABB,
      aabbOverlap, c4A, c4B, c4C, predBoxA, predBoxB, predBoxC,
      List.getD_cons_zero, List.getD_cons_succ]
  · norm_num [predictTruckIntersectionCollAABB, predictTruckIntersectionAABB, intersectionAABB,
      aabbOverlap, c4A, c4B, c4C, predBoxA, predBoxB, predBoxC,
      List.getD_cons_zero, List.getD_cons_succ]

theorem c4_reachability_wake_witness :
    ∃ b, (recursiveActivation 3 0 ([false, false],
        [some ⟨SimState.LOCAL_SIMULATED, 0, 1, actBoxA, predBoxA, [], []⟩,
         some ⟨SimState.LOCAL_SLEEPING, 7, 0, actBoxB, predBoxB, [], []⟩])).2.getD 1 none
      = some b ∧ b.ar_sim_state = SimState.LOCAL_SIMULATED ∧ b.ar_sleep_counter = 0 :=
  c4_reachability_wake.1 3 0 1 _ _ _ (by decide) rfl rfl rfl rfl rfl rfl
    (by norm_num [predictTruckIntersectionCollAABB, predictTruckIntersectionAABB,
      intersectionAABB, aabbOverlap, predBoxA, predBoxB,
      List.getD_cons_zero, List.getD_cons_succ])

/-- Predicted boxes for the networked-actor scenario: the player box is
disjoint from everything, the networked box is huge (overlapping everything),
and the sleeping box overlaps only the networked one. -/
def predBoxP : AABB := ⟨0, 0, 0, 1, 1, 1⟩

def predBoxN : AABB := ⟨-50, -50, -50, 50, 50, 50⟩

def predBoxQ : AABB := ⟨10, 10, 10, 12, 12, 12⟩

/-- Player-controlled simulated actor of the networked scenario. -/
def c7A : ActorS := ⟨SimState.LOCAL_SIMULATED, 5, 1, actBoxA, predBoxP, [], []⟩

/-- Networked actor whose predicted box overlaps everything. -/
def c7N : ActorS := ⟨SimState.NETWORKED_OK, 0, 0, actBoxB, predBoxN, [], []⟩

/-- Sleeping actor whose predicted box overlaps only the networked actor. -/
def c7B : ActorS := ⟨SimState.LOCAL_SLEEPING, 3, 0, actBoxC, predBoxQ, [], []⟩

theorem c7_concrete_run :
    updateSleepingState (1 / 10) ⟨[some c7A, some c7N, some c7B], 0, false⟩
      = ⟨[some ⟨SimState.LOCAL_SIMULATED, 0, 1, actBoxA, predBoxP, [], []⟩,
          some c7N, some c7B], 0, false⟩ := by
  have hA : sleepStep (10 : ℚ)⁻¹
      (some ⟨SimState.LOCAL_SIMULATED, 5, 1, actBoxA, predBoxP, [], []⟩)
      = some ⟨SimState.LOCAL_SIMULATED, 5, 1, actBoxA, predBoxP, [], []⟩ := by
    norm_num [sleepStep]
  have hN : sleepStep (10 : ℚ)⁻¹
      (some ⟨SimState.NETWORKED_OK, 0, 0, actBoxB, predBoxN, [], []⟩)
      = some ⟨SimState.NETWORKED_OK, 0, 0, actBoxB, predBoxN, [], []⟩ := by
    simp [sleepStep]
  have hB : sleepStep (10 : ℚ)⁻¹
      (some ⟨SimState.LOCAL_SLEEPING, 3, 0, actBoxC, predBoxQ, [], []⟩)
      = some ⟨SimState.LOCAL_SLEEPING, 3, 0, actBoxC, predBoxQ, [], []⟩ := by
    simp [sleepStep]
  have hOvBA : predictTruckIntersectionCollAABB
      [some ⟨SimState.LOCAL_SIMULATED, 0, 1, actBoxA, predBoxP, [], []⟩,
       some ⟨SimState.NETWORKED_OK, 0, 0, actBoxB, predBoxN, [], []⟩,
       some ⟨SimState.LOCAL_SLEEPING, 3, 0, actBoxC, predBoxQ, [], []⟩] 2 0 1 = false := by
    norm_num [predictTruckIntersectionCollAABB, predictTruckIntersectionAABB, intersectionAABB,
      aabbOverlap, predBoxP, predBoxQ, List.getD_cons_zero, List.getD_cons_succ]
  simp [updateSleepingState, sleepCountLoop, getTruckS, c7A, c7N, c7B, hA, hN, hB, hOvBA,
    recursiveActivation, recActBody, recursiveActivation_visited,
    List.getD_cons_zero, List.getD_cons_succ, List.set, List.replicate,
    List.range_succ, List.range_zero, List.foldl_append, List.foldl_cons, List.foldl_nil]

/-- C7: a networked wake source never activates anyone (RecursiveActivation
from a NETWORKED_OK slot is the identity), a NETWORKED_OK actor is never
marked visited by any pass, and in the concrete scenario where sleeping B's
predicted geometry overlaps networked N's, one UpdateSleepingState pass
leaves both N and B unchanged — B stays LOCAL_SLEEPING despite the
overlap. -/
theorem c7_networked_no_chain :
    (∀ (fuel j : ℕ) (s : List Bool × List (Option ActorS)) (aj : ActorS),
        s.2.getD j none = some aj → aj.ar_sim_state = SimState.NETWORKED_OK →
        recursiveActivation fuel j s = s)
    ∧ (∀ (fuel j t : ℕ) (s : List Bool × List (Option ActorS)) (a : ActorS),
        s.2.getD t none = some a → a.ar_sim_state = SimState.NETWORKED_OK →
        s.1.getD t false = false →
        (recursiveActivation fuel j s).1.getD t false = false)
    ∧ predictTruckIntersectionCollAABB [some c7A, some c7N, some c7B] 2 1 1 = true
    ∧ updateSleepingState (1 / 10) ⟨[some c7A, some c7N, some c7B], 0, false⟩
        = ⟨[some ⟨SimState.LOCAL_SIMULATED, 0, 1, actBoxA, predBoxP, [], []⟩,
            some c7N, some c7B], 0, false⟩ := by
  refine ⟨?_, ?_, ?_, c7_concrete_run⟩
  · intro fuel j s aj hj hn
    exact recursiveActivation_networked_id fuel j s aj hj hn
  · intro fuel j t s a ht hn htv
    exact recursiveActivation_networked_unmarked fuel j t s a ht hn htv
  · norm_num [predictTruckIntersectionCollAABB, predictTruckIntersectionAABB, intersectionAABB,
      aabbOverlap, c7A, c7N, c7B, predBoxN, predBoxQ,
      List.getD_cons_zero, List.getD_cons_succ]

theorem c7_networked_no_chain_witness :
    recursiveActivation 2 0 ([false, false], [some c7N, some c7B])
      = ([false, false], [some c7N, some c7B])
    ∧ (recursiveActivation 2 1 ([false, false], [some c7N, some c7B])).1.getD 0 false
      = false :=
  ⟨c7_networked_no_chain.1 2 0 _ c7N rfl rfl,
   c7_networked_no_chain.2.1 2 1 0 _ c7N rfl rfl rfl⟩
/-- Event alphabet of one UpdatePhysicsSimulation substep: per-actor prepare,
compute, finalize, self-collision and inter-actor-collision work items. -/
inductive PhysEvent where
  | prep (t : ℕ)
  | comp (t : ℕ)
  | fin (t : ℕ)
  | selfColl (t : ℕ)
  | interColl (t : ℕ)
deriving DecidableEq

def twoPassGo : Bool → List PhysEvent → Bool
  | _, [] => true
  | seenFin, e :: es =>
    match e with
    | PhysEvent.comp _ => if seenFin then false else twoPassGo seenFin es
    | PhysEvent.fin _ => twoPassGo true es
    | _ => twoPassGo seenFin es

/-- A substep trace is phase-separated (two passes) when every compute event
precedes every finalize event. -/
def twoPassOK (tr : List PhysEvent) : Bool := twoPassGo false tr

/-- Work-item order of one substep of the serial branch of
ActorManager::UpdatePhysicsSimulation (lines 1237-1265): per actor slot in
order, prepare, and if the actor participates, compute then finalize then
intra-truck collisions, fused before moving to the next slot. The
participation flags per slot are the input. -/
def serialSubstepTrace (parts : List Bool) : List PhysEvent :=
  (List.range parts.length).foldl (fun acc t =>
    acc ++ [PhysEvent.prep t] ++
      (if parts.getD t false then
        [PhysEvent.comp t, PhysEvent.fin t, PhysEvent.selfColl t] else [])) []

/-- Work-item order of one substep of the threaded branch (lines 1165-1202):
a serial prepare pass over all slots, then the queued compute plus
intra-collision tasks in queue order, then a serial finalize pass. -/
def parallelSubstepTrace (parts : List Bool) : List PhysEvent :=
  (List.range parts.length).map PhysEvent.prep ++
  (List.range parts.length).foldl (fun acc t =>
    acc ++ (if parts.getD t false then [PhysEvent.comp t, PhysEvent.selfColl t] else [])) [] ++
  (List.range parts.length).foldl (fun acc t =>
    acc ++ (if parts.getD t false then [PhysEvent.fin t] else [])) []

/-- The actor fields read by UpdatePhysicsSimulation: the opaque physical
state st, the participation flag written by the prepare call, and the two
collision-disable flags. -/
structure PActor (A : Type) where
  st : A
  ar_update_physics : Bool
  ar_disable_self_collision : Bool
  ar_disable_actor2actor_collision : Bool
deriving DecidableEq

/-- The per-actor physics kernels called by UpdatePhysicsSimulation, opaque
code outside this file (Actor/collision modules): each call is a function of
the substep index i, the substep count (from which the i==0 flag and the dt
argument are derived) and the actor state; geo is the node geometry another
actor's inter-collision pass reads, and the inter kernels additionally take
the geometry snapshot of all slots. -/
structure PhysKernels (A G : Type) where
  calcForcesEulerPrepare : ℕ → ℕ → A → Bool × A
  calcForcesEulerCompute : ℕ → ℕ → A → A
  intraCollisions : A → A
  calcForcesEulerFinal : ℕ → ℕ → A → A
  geo : A → G
  interUpdate : A → List (Option G) → A
  ar_collision_relevant : A → Bool
  interCollisions : A → List (Option G) → A
  preUpdatePhysics : ℚ → A → A
  postUpdatePhysics : ℚ → A → A

/-- The prepare pass body (lines 1170-1172 / 1242-1244): store the
participation flag returned by calcForcesEulerPrepare. -/
def prepStep {A G : Type} (K : PhysKernels A G) (i steps : ℕ) :
    Option (PActor A) → Option (PActor A)
  | none => none
  | some p =>
    some { p with ar_update_physics := (K.calcForcesEulerPrepare i steps p.st).1,
                  st := (K.calcForcesEulerPrepare i steps p.st).2 }

/-- One queued compute task of the threaded branch (lines 1176-1191): compute,
then intra-truck collisions unless disabled. -/
def computeTask {A G : Type} (K : PhysKernels A G) (i steps : ℕ) (p : PActor A) : PActor A :=
  if p.ar_update_physics then
    { p with st :=
        if p.ar_disable_self_collision then K.calcForcesEulerCompute i steps p.st
        else K.intraCollisions (K.calcForcesEulerCompute i steps p.st) }
  else p

/-- The serial finalize pass body of the threaded branch (lines 1198-1202). -/
def finalTask {A G : Type} (K : PhysKernels A G) (i steps : ℕ) (p : PActor A) : PActor A :=
  if p.ar_update_physics then { p with st := K.calcForcesEulerFinal i steps p.st } else p

/-- The per-slot geometry the inter-collision kernels read from m_actors. -/
def geosOf {A G : Type} (K : PhysKernels A G) (acts : List (Option (PActor A))) :
    List (Option G) :=
  acts.map (Option.map (fun p => K.geo p.st))

/-- One inter-collision work item (lines 1208-1229 / 1267-1287): for a
participating actor with actor-to-actor collisions enabled, update its
inter-point collision detector against the given slot geometries, then run
inter-truck collisions when relevant. -/
def interTaskP {A G : Type} (K : PhysKernels A G) (gs : List (Option G)) (p : PActor A) :
    PActor A :=
  if p.ar_update_physics = true ∧ p.ar_disable_actor2actor_collision = false then
    { p with st :=
        if K.ar_collision_relevant (K.interUpdate p.st gs) = true then
          K.interCollisions (K.interUpdate p.st gs) gs
        else K.interUpdate p.st gs }
  else p

/-- num_simulated_trucks: the number of slots whose prepare call returned
true in this substep. -/
def numSim {A : Type} (acts : List (Option (PActor A))) : ℕ :=
  acts.countP (fun o => (o.map PActor.ar_update_physics).getD false)

/-- One substep of the threaded branch (lines 1165-1232): serial prepare
pass, parallel compute (plus intra-collision) tasks, serial finalize pass,
then, when more than one actor participates, the parallel inter-collision
tasks; the concurrent tasks of a Parallelize batch are modelled as each
reading the state the batch was entered with. -/
def parallelSubstep {A G : Type} (K : PhysKernels A G) (i steps : ℕ)
    (acts : List (Option (PActor A))) : List (Option (PActor A)) :=
  let a1 := acts.map (prepStep K i steps)
  let a3 := (a1.map (Option.map (computeTask K i steps))).map (Option.map (finalTask K i steps))
  if 1 < numSim a1 then a3.map (Option.map (interTaskP K (geosOf K a3))) else a3

/-- The fused per-actor body of the serial branch (lines 1242-1264): prepare,
and if the actor participates, compute, finalize, then intra-truck collisions
unless disabled — all before the next slot is visited. -/
def serialStep {A G : Type} (K : PhysKernels A G) (i steps : ℕ) :
    Option (PActor A) → Option (PActor A)
  | none => none
  | some p =>
    if (K.calcForcesEulerPrepare i steps p.st).1 = true then
      some { p with ar_update_physics := true,
                    st := (if p.ar_disable_self_collision then K.calcForcesEulerFinal i steps (K.calcForcesEulerCompute i steps (K.calcForcesEulerPrepare i steps p.st).2) else K.intraCollisions (K.calcForcesEulerFinal i steps (K.calcForcesEulerCompute i steps (K.calcForcesEulerPrepare i steps p.st).2))) }
    else some { p with ar_update_physics := false,
                       st := (K.calcForcesEulerPrepare i steps p.st).2 }

/-- The serial inter-collision pass (lines 1267-1287): slots in order, each
work item reading the current m_actors, including the effect of the inter
work items already run in this pass. -/
def serialInterGo {A G : Type} (K : PhysKernels A G) :
    List (Option (PActor A)) → List (Option (PActor A)) → List (Option (PActor A))
  | done, [] => done
  | done, none :: rest => serialInterGo K (done ++ [none]) rest
  | done, some p :: rest =>
    serialInterGo K
      (done ++ [some (interTaskP K (geosOf K (done ++ some p :: rest)) p)]) rest

/-- One substep of the serial branch (lines 1239-1288). -/
def serialSubstep {A G : Type} (K : PhysKernels A G) (i steps : ℕ)
    (acts : List (Option (PActor A))) : List (Option (PActor A)) :=
  let a1 := acts.map (serialStep K i steps)
  if 1 < numSim a1 then serialInterGo K [] a1 else a1

/-- ActorManager::UpdatePhysicsSimulation (lines 1155-1301): the
preUpdatePhysics pass over all live slots, m_physics_steps substeps through
the threaded branch when a worker pool is configured and the serial branch
otherwise, then the postUpdatePhysics pass over the participating slots. -/
def updatePhysicsSimulation {A G : Type} (pool : Bool) (K : PhysKernels A G) (steps : ℕ)
    (acts : List (Option (PActor A))) : List (Option (PActor A)) :=
  let a0 := acts.map (Option.map (fun p =>
    { p with st := K.preUpdatePhysics ((steps : ℚ) * PHYSICS_DT) p.st }))
  let a1 := (List.range steps).foldl
    (fun acc i => if pool then parallelSubstep K i steps acc else serialSubstep K i steps acc) a0
  a1.map (Option.map (fun p =>
    if p.ar_update_physics = true then
      { p with st := K.postUpdatePhysics ((steps : ℚ) * PHYSICS_DT) p.st }
    else p))

/-- A kernel instance on which fusing finalize before intra-collision changes
the result: intra-collision adds 1, finalize doubles. -/
def c1K1 : PhysKernels ℕ Unit :=
  ⟨fun _ _ a => (true, a), fun _ _ a => a, fun a => a + 1, fun _ _ a => 2 * a,
   fun _ => (), fun a _ => a, fun _ => false, fun a _ => a, fun _ a => a, fun _ a => a⟩
/-- C1 counterexample: the serial branch is not phase-separated — its substep
trace with two participating actors interleaves actor 0's finalize before
actor 1's compute, failing the two-pass check that the threaded branch's
trace satisfies — and the fusion is observable: the serial branch runs
finalize before intra-truck collisions per actor while the threaded branch
runs intra-truck collisions inside the compute task before the finalize pass,
so for a kernel where the two do not commute the two modes produce different
physical results from the same initial state. -/
theorem c1_serial_not_two_pass :
    twoPassOK (parallelSubstepTrace [true, true]) = true
    ∧ twoPassOK (serialSubstepTrace [true, true]) = false
    ∧ updatePhysicsSimulation true c1K1 1 [some ⟨1, false, false, false⟩]
      ≠ updatePhysicsSimulation false c1K1 1 [some ⟨1, false, false, false⟩] := by
  refine ⟨by decide, by decide, ?_⟩
  decide
theorem serialStep_eq {A G : Type} (K : PhysKernels A G) (i steps : ℕ)
    (Hcomm : ∀ (i2 steps2 : ℕ) (a : A),
      K.calcForcesEulerFinal i2 steps2 (K.intraCollisions a)
        = K.intraCollisions (K.calcForcesEulerFinal i2 steps2 a))
    (o : Option (PActor A)) :
    serialStep K i steps o
      = Option.map (finalTask K i steps)
          (Option.map (computeTask K i steps) (prepStep K i steps o)) := by
  cases o with
  | none => rfl
  | some p =>
    cases hb : (K.calcForcesEulerPrepare i steps p.st).1 with
    | false => simp [serialStep, prepStep, computeTask, finalTask, hb]
    | true =>
      cases hd : p.ar_disable_self_collision with
      | true => simp [serialStep, prepStep, computeTask, finalTask, hb, hd]
      | false => simp [serialStep, prepStep, computeTask, finalTask, hb, hd, Hcomm]

theorem serialPass_eq {A G : Type} (K : PhysKernels A G) (i steps : ℕ)
    (Hcomm : ∀ (i2 steps2 : ℕ) (a : A),
      K.calcForcesEulerFinal i2 steps2 (K.intraCollisions a)
        = K.intraCollisions (K.calcForcesEulerFinal i2 steps2 a))
    (acts : List (Option (PActor A))) :
    acts.map (serialStep K i steps)
      = ((acts.map (prepStep K i steps)).map (Option.map (computeTask K i steps))).map
          (Option.map (finalTask K i steps)) := by
  rw [List.map_map, List.map_map]
  exact List.map_congr_left (fun o _ => serialStep_eq K i steps Hcomm o)

theorem interTaskP_geo {A G : Type} (K : PhysKernels A G)
    (Hgeo1 : ∀ (a : A) (gs : List (Option G)), K.geo (K.interUpdate a gs) = K.geo a)
    (Hgeo2 : ∀ (a : A) (gs : List (Option G)), K.geo (K.interCollisions a gs) = K.geo a)
    (gs : List (Option G)) (p : PActor A) :
    K.geo (interTaskP K gs p).st = K.geo p.st := by
  by_cases h : p.ar_update_physics = true ∧ p.ar_disable_actor2actor_collision = false
  · by_cases h2 : K.ar_collision_relevant (K.interUpdate p.st gs) = true
    · simp [interTaskP, h, h2, Hgeo1, Hgeo2]
    · simp [interTaskP, h, h2, Hgeo1]
  · simp [interTaskP, h]

theorem serialInterGo_eq {A G : Type} (K : PhysKernels A G)
    (Hgeo1 : ∀ (a : A) (gs : List (Option G)), K.geo (K.interUpdate a gs) = K.geo a)
    (Hgeo2 : ∀ (a : A) (gs : List (Option G)), K.geo (K.interCollisions a gs) = K.geo a) :
    ∀ (todo done : List (Option (PActor A))),
      serialInterGo K done todo
        = done ++ todo.map (Option.map (interTaskP K (geosOf K (done ++ todo)))) := by
  intro todo
  induction todo with
  | nil => intro done; simp [serialInterGo]
  | cons x rest ih =>
    intro done
    cases x with
    | none =>
      rw [show serialInterGo K done (none :: rest) = serialInterGo K (done ++ [none]) rest
          from rfl]
      rw [ih (done ++ [none])]
      simp [geosOf]
    | some p =>
      rw [show serialInterGo K done (some p :: rest)
          = serialInterGo K
              (done ++ [some (interTaskP K (geosOf K (done ++ some p :: rest)) p)]) rest
          from rfl]
      rw [ih (done ++ [some (interTaskP K (geosOf K (done ++ some p :: rest)) p)])]
      have hg : geosOf K
          ((done ++ [some (interTaskP K (geosOf K (done ++ some p :: rest)) p)]) ++ rest)
          = geosOf K (done ++ some p :: rest) := by
        simp [geosOf, interTaskP_geo K Hgeo1 Hgeo2]
      rw [hg]
      simp

theorem numSim_map {A : Type} (f : PActor A → PActor A)
    (hf : ∀ p, (f p).ar_update_physics = p.ar_update_physics) :
    ∀ l : List (Option (PActor A)), numSim (l.map (Option.map f)) = numSim l := by
  intro l
  induction l with
  | nil => rfl
  | cons o rest ih =>
    cases o with
    | none =>
      show numSim (none :: rest.map (Option.map f)) = numSim (none :: rest)
      simp only [numSim, List.countP_cons] at ih ⊢
      rw [ih]
    | some p =>
      show numSim (some (f p) :: rest.map (Option.map f)) = numSim (some p :: rest)
      simp only [numSim, List.countP_cons] at ih ⊢
      rw [ih]
      simp [hf]

theorem computeTask_flag {A G : Type} (K : PhysKernels A G) (i steps : ℕ) (p : PActor A) :
    (computeTask K i steps p).ar_update_physics = p.ar_update_physics := by
  by_cases h : p.ar_update_physics = true <;> simp [computeTask, h]

theorem finalTask_flag {A G : Type} (K : PhysKernels A G) (i steps : ℕ) (p : PActor A) :
    (finalTask K i steps p).ar_update_physics = p.ar_update_physics := by
  by_cases h : p.ar_update_physics = true <;> simp [finalTask, h]

theorem substep_eq {A G : Type} (K : PhysKernels A G)
    (Hcomm : ∀ (i2 steps2 : ℕ) (a : A),
      K.calcForcesEulerFinal i2 steps2 (K.intraCollisions a)
        = K.intraCollisions (K.calcForcesEulerFinal i2 steps2 a))
    (Hgeo1 : ∀ (a : A) (gs : List (Option G)), K.geo (K.interUpdate a gs) = K.geo a)
    (Hgeo2 : ∀ (a : A) (gs : List (Option G)), K.geo (K.interCollisions a gs) = K.geo a)
    (i steps : ℕ) (acts : List (Option (PActor A))) :
    serialSubstep K i steps acts = parallelSubstep K i steps acts := by
  have hS := serialPass_eq K i steps Hcomm acts
  have hnum : numSim (((acts.map (prepStep K i steps)).map
        (Option.map (computeTask K i steps))).map (Option.map (finalTask K i steps)))
      = numSim (acts.map (prepStep K i steps)) := by
    rw [numSim_map _ (finalTask_flag K i steps), numSim_map _ (computeTask_flag K i steps)]
  simp only [serialSubstep, parallelSubstep, hS, hnum]
  by_cases hn : 1 < numSim (acts.map (prepStep K i steps))
  · rw [if_pos hn, if_pos hn, serialInterGo_eq K Hgeo1 Hgeo2]
    simp
  · rw [if_neg hn, if_neg hn]
theorem substeps_foldl_eq {A G : Type} (K : PhysKernels A G)
    (Hcomm : ∀ (i2 steps2 : ℕ) (a : A),
      K.calcForcesEulerFinal i2 steps2 (K.intraCollisions a)
        = K.intraCollisions (K.calcForcesEulerFinal i2 steps2 a))
    (Hgeo1 : ∀ (a : A) (gs : List (Option G)), K.geo (K.interUpdate a gs) = K.geo a)
    (Hgeo2 : ∀ (a : A) (gs : List (Option G)), K.geo (K.interCollisions a gs) = K.geo a)
    (steps : ℕ) :
    ∀ (l : List ℕ) (a0 : List (Option (PActor A))),
      l.foldl (fun acc i => parallelSubstep K i steps acc) a0
        = l.foldl (fun acc i => serialSubstep K i steps acc) a0 := by
  intro l
  induction l with
  | nil => intro a0; rfl
  | cons x xs ih =>
    intro a0
    simp only [List.foldl_cons]
    rw [← substep_eq K Hcomm Hgeo1 Hgeo2 x steps a0]
    exact ih (serialSubstep K x steps a0)

/-- C1 (amended): UpdatePhysicsSimulation without a worker pool produces the
same physical results as with one — for every substep count and initial slot
list — provided the per-actor finalize kernel commutes with the intra-truck
collision kernel (the serial branch fuses them in the opposite order to the
threaded branch) and the inter-collision kernels do not change the geometry
other actors read (so the serial pass reading live state agrees with the
threaded snapshot). Without the commutation hypothesis the equivalence fails,
as the counterexample shows. -/
theorem c1_serial_parallel_equiv {A G : Type} (K : PhysKernels A G)
    (Hcomm : ∀ (i2 steps2 : ℕ) (a : A),
      K.calcForcesEulerFinal i2 steps2 (K.intraCollisions a)
        = K.intraCollisions (K.calcForcesEulerFinal i2 steps2 a))
    (Hgeo1 : ∀ (a : A) (gs : List (Option G)), K.geo (K.interUpdate a gs) = K.geo a)
    (Hgeo2 : ∀ (a : A) (gs : List (Option G)), K.geo (K.interCollisions a gs) = K.geo a)
    (steps : ℕ) (acts : List (Option (PActor A))) :
    updatePhysicsSimulation true K steps acts = updatePhysicsSimulation false K steps acts := by
  simp only [updatePhysicsSimulation, Bool.false_eq_true, if_true, if_false]
  rw [substeps_foldl_eq K Hcomm Hgeo1 Hgeo2 steps]

/-- A kernel whose intra-collision and finalize parts commute: intra adds 1,
finalize adds 2. -/
def c1K2 : PhysKernels ℕ Unit :=
  ⟨fun _ _ a => (true, a), fun _ _ a => a, fun a => a + 1, fun _ _ a => a + 2,
   fun _ => (), fun a _ => a, fun _ => false, fun a _ => a, fun _ a => a, fun _ a => a⟩

theorem c1_serial_parallel_equiv_witness :
    updatePhysicsSimulation true c1K2 2
        [some ⟨0, false, false, false⟩, some ⟨7, true, false, false⟩]
      = updatePhysicsSimulation false c1K2 2
        [some ⟨0, false, false, false⟩, some ⟨7, true, false, false⟩] :=
  c1_serial_parallel_equiv c1K2 (fun i2 steps2 a => by simp [c1K2])
    (fun a gs => rfl) (fun a gs => rfl) 2
    [some ⟨0, false, false, false⟩, some ⟨7, true, false, false⟩]
